import Mathlib

/-!
Verification of the EPUB/ZIP container builder and the SMTP mail client of the
send-to-kindle extension.  Byte buffers are modelled as `List Nat` (each
element a byte value `< 256`), JavaScript strings as Lean `String`/`List Char`.
JavaScript's `>>> 0` coercions are modelled by keeping all register values as
natural numbers below `2 ^ 32`, which the algorithms preserve.
-/

set_option maxHeartbeats 1000000

namespace SendToKindle

/-! ## CRC-32 (part_004, `crc32` and `CRC_TABLE`) -/

/-- One iteration of the inner loop of the `CRC_TABLE` initialiser:
`c = c & 1 ? 0xedb88320 ^ (c >>> 1) : c >>> 1`. -/
def bitStep (c : Nat) : Nat :=
  if c % 2 = 1 then 0xedb88320 ^^^ (c / 2) else c / 2

/-- `CRC_TABLE[i]`: the table initialiser runs the bit step eight times on `i`. -/
def CRC_TABLE (i : Nat) : Nat :=
  (List.range 8).foldl (fun c _ => bitStep c) i

/-- `crc32(buffer)` from part_004: table-driven update
`crc = (crc >>> 8) ^ CRC_TABLE[(crc ^ byte) & 0xff]` starting from all ones,
finally inverted (`^ 0xffffffff`; the trailing `>>> 0` is a no-op on naturals
below `2 ^ 32`). -/
def crc32 (buffer : List Nat) : Nat :=
  (buffer.foldl (fun crc byte => (crc >>> 8) ^^^ CRC_TABLE ((crc ^^^ byte) &&& 0xff))
    0xffffffff) ^^^ 0xffffffff

/-- `k` iterations of the polynomial bit step. -/
def bitstepN : Nat → Nat → Nat
  | 0, c => c
  | k + 1, c => bitstepN k (bitStep c)

/-- Modelled from the spec: the reference bit-at-a-time IEEE-802.3 CRC-32
(reflected polynomial `0xedb88320`): register starts as all ones, each byte is
xor-ed into the register which then undergoes eight bit steps, and the final
register is inverted. -/
def crc32_ieee (buffer : List Nat) : Nat :=
  (buffer.foldl (fun crc byte => bitstepN 8 (crc ^^^ byte)) 0xffffffff) ^^^ 0xffffffff

/-! ### Helper byte/string encodings -/

/-- UTF-8 encoding of a single character (what `Buffer.from(s, "utf8")` does
per code point). -/
def utf8EncodeCharNat (c : Char) : List Nat :=
  let n := c.toNat
  if n < 0x80 then [n]
  else if n < 0x800 then [0xC0 + n / 64, 0x80 + n % 64]
  else if n < 0x10000 then [0xE0 + n / 4096, 0x80 + (n / 64) % 64, 0x80 + n % 64]
  else [0xF0 + n / 262144, 0x80 + (n / 4096) % 64, 0x80 + (n / 64) % 64, 0x80 + n % 64]

/-- `Buffer.from(s, "utf8")` as a byte list. -/
def utf8Bytes (s : String) : List Nat :=
  (s.data.map utf8EncodeCharNat).flatten

/-! ### CRC-32 equivalence lemmas -/

theorem xor_shiftRight_distrib (a b k : Nat) :
    (a ^^^ b) >>> k = (a >>> k) ^^^ (b >>> k) :=
  Nat.eq_of_testBit_eq fun i => by
    simp [Nat.testBit_shiftRight, Nat.testBit_xor]

theorem xor_mod_two_pow (a b k : Nat) :
    (a ^^^ b) % 2 ^ k = (a % 2 ^ k) ^^^ (b % 2 ^ k) :=
  Nat.eq_of_testBit_eq fun i => by
    simp only [Nat.testBit_mod_two_pow, Nat.testBit_xor]
    by_cases h : i < k <;> simp [h]

theorem mod_xor_shiftRight_shiftLeft (x k : Nat) :
    (x % 2 ^ k) ^^^ ((x >>> k) <<< k) = x :=
  Nat.eq_of_testBit_eq fun i => by
    simp only [Nat.testBit_xor, Nat.testBit_mod_two_pow, Nat.testBit_shiftLeft,
      Nat.testBit_shiftRight]
    by_cases h : i < k
    · simp [h, Nat.not_le.mpr h]
    · have hk : k ≤ i := Nat.le_of_not_lt h
      have : k + (i - k) = i := by omega
      simp [h, hk, this]

theorem bitStep_xor_even (x e : Nat) (he : e % 2 = 0) :
    bitStep (x ^^^ e) = bitStep x ^^^ (e / 2) := by
  have hpar : (x ^^^ e) % 2 = x % 2 := by
    have h := xor_mod_two_pow x e 1
    simp only [Nat.pow_one] at h
    simp [h, he]
  have hdiv : (x ^^^ e) / 2 = (x / 2) ^^^ (e / 2) := by
    have h := xor_shiftRight_distrib x e 1
    simpa [Nat.shiftRight_one] using h
  unfold bitStep
  rcases Nat.mod_two_eq_zero_or_one x with h | h
  · simp [h, hpar, hdiv]
  · simp [h, hpar, hdiv, Nat.xor_assoc]

theorem bitstepN_xor_shiftLeft : ∀ (k a x : Nat),
    bitstepN k (x ^^^ (a <<< k)) = bitstepN k x ^^^ a
  | 0, a, x => by simp [bitstepN, Nat.shiftLeft_eq]
  | k + 1, a, x => by
    have he : (a <<< (k + 1)) % 2 = 0 := by
      rw [Nat.shiftLeft_eq, Nat.pow_succ, ← Nat.mul_assoc]
      exact Nat.mul_mod_left _ 2
    have hdiv : (a <<< (k + 1)) / 2 = a <<< k := by
      rw [Nat.shiftLeft_eq, Nat.shiftLeft_eq, Nat.pow_succ, ← Nat.mul_assoc]
      exact Nat.mul_div_cancel _ (by omega)
    show bitstepN k (bitStep (x ^^^ (a <<< (k + 1)))) = bitstepN k (bitStep x) ^^^ a
    rw [bitStep_xor_even _ _ he, hdiv, bitstepN_xor_shiftLeft k a (bitStep x)]

theorem CRC_TABLE_eq_bitstepN (i : Nat) : CRC_TABLE i = bitstepN 8 i := rfl

theorem and_mask_255 (x : Nat) : x &&& 0xff = x % 256 := by
  have h := Nat.and_pow_two_sub_one_eq_mod x 8
  norm_num at h
  exact h

theorem table_step_eq (c b : Nat) (hb : b < 256) :
    (c >>> 8) ^^^ CRC_TABLE ((c ^^^ b) &&& 0xff) = bitstepN 8 (c ^^^ b) := by
  have hb8 : b >>> 8 = 0 := by
    rw [Nat.shiftRight_eq_div_pow]
    norm_num
    omega
  have h2 : (c ^^^ b) >>> 8 = c >>> 8 := by
    rw [xor_shiftRight_distrib, hb8, Nat.xor_zero]
  have h256 : (256 : Nat) = 2 ^ 8 := by norm_num
  calc (c >>> 8) ^^^ CRC_TABLE ((c ^^^ b) &&& 0xff)
      = (c >>> 8) ^^^ bitstepN 8 ((c ^^^ b) % 2 ^ 8) := by
        rw [CRC_TABLE_eq_bitstepN, and_mask_255, h256]
    _ = bitstepN 8 ((c ^^^ b) % 2 ^ 8) ^^^ ((c ^^^ b) >>> 8) := by
        rw [h2, Nat.xor_comm]
    _ = bitstepN 8 (((c ^^^ b) % 2 ^ 8) ^^^ (((c ^^^ b) >>> 8) <<< 8)) := by
        rw [bitstepN_xor_shiftLeft]
    _ = bitstepN 8 (c ^^^ b) := by rw [mod_xor_shiftRight_shiftLeft]

theorem crc32_fold_eq : ∀ (bytes : List Nat) (c : Nat), (∀ b ∈ bytes, b < 256) →
    bytes.foldl (fun crc byte => (crc >>> 8) ^^^ CRC_TABLE ((crc ^^^ byte) &&& 0xff)) c
      = bytes.foldl (fun crc byte => bitstepN 8 (crc ^^^ byte)) c
  | [], _, _ => rfl
  | b :: rest, c, h => by
    have hb : b < 256 := h b (by simp)
    have hrest : ∀ x ∈ rest, x < 256 := fun x hx => h x (by simp [hx])
    simp only [List.foldl_cons]
    rw [table_step_eq c b hb]
    exact crc32_fold_eq rest _ hrest

/-- C1: `crc32` computes the standard IEEE-802.3 table-driven CRC-32
(initialised with all ones, finalised by inverting all bits) over the entire
input: on every byte sequence it agrees with the reference bit-at-a-time IEEE
CRC-32, `crc32` of the empty input is `0`, and `crc32` of the ASCII bytes of
`"123456789"` is `0xCBF43926`. -/
theorem crc32_is_ieee_crc32 :
    (∀ bytes : List Nat, (∀ b ∈ bytes, b < 256) → crc32 bytes = crc32_ieee bytes)
    ∧ crc32 (utf8Bytes "123456789") = 0xCBF43926
    ∧ crc32 [] = 0 := by
  refine ⟨fun bytes h => ?_, by decide, by decide⟩
  unfold crc32 crc32_ieee
  rw [crc32_fold_eq bytes _ h]

/-- Witness for C1: the general agreement applied to a concrete byte sequence. -/
theorem crc32_is_ieee_crc32_witness :
    (∀ b ∈ [49, 50, 51], b < 256) ∧ crc32 [49, 50, 51] = crc32_ieee [49, 50, 51] :=
  ⟨by decide, crc32_is_ieee_crc32.1 [49, 50, 51] (by decide)⟩

/-! ## ZIP builder (part_004, `buildZip`) -/

/-- `writeUInt16LE` as two little-endian bytes (values in range never wrap). -/
def u16le (v : Nat) : List Nat := [v % 256, v / 256 % 256]

/-- `writeUInt32LE` as four little-endian bytes. -/
def u32le (v : Nat) : List Nat :=
  [v % 256, v / 256 % 256, v / 65536 % 256, v / 16777216 % 256]

structure ZipEntry where
  name : String
  data : List Nat

/-- The 30-byte local file header plus the file name, laid out exactly as the
`localHeader` writes in `buildZip`: signature, version 20, flags 0, method 0
(stored), time 0, date 0, CRC-32, compressed size, uncompressed size, name
length, extra length 0, then the name bytes. -/
def localHeaderBytes (nameB data : List Nat) : List Nat :=
  u32le 0x04034b50 ++ u16le 20 ++ u16le 0 ++ u16le 0 ++ u16le 0 ++ u16le 0 ++
  u32le (crc32 data) ++ u32le data.length ++ u32le data.length ++
  u16le nameB.length ++ u16le 0 ++ nameB

/-- The 46-byte central directory header plus the file name, as written by
`buildZip`: signature, version made by 20, version needed 20, flags 0,
method 0, time 0, date 0, CRC-32, sizes, name length, extra/comment lengths 0,
disk number 0, attributes 0, local header offset, then the name bytes. -/
def centralHeaderBytes (nameB data : List Nat) (offset : Nat) : List Nat :=
  u32le 0x02014b50 ++ u16le 20 ++ u16le 20 ++ u16le 0 ++ u16le 0 ++ u16le 0 ++
  u16le 0 ++ u32le (crc32 data) ++ u32le data.length ++ u32le data.length ++
  u16le nameB.length ++ u16le 0 ++ u16le 0 ++ u16le 0 ++ u16le 0 ++ u32le 0 ++
  u32le offset ++ nameB

/-- The loop of `buildZip`: returns the concatenated local chunks, the list of
central directory records, and the final running offset. -/
def buildZipAux : List ZipEntry → Nat → List Nat × List (List Nat) × Nat
  | [], offset => ([], [], offset)
  | e :: rest, offset =>
    let nameB := utf8Bytes e.name
    let lh := localHeaderBytes nameB e.data
    let ch := centralHeaderBytes nameB e.data offset
    let r := buildZipAux rest (offset + lh.length + e.data.length)
    (lh ++ e.data ++ r.1, ch :: r.2.1, r.2.2)

/-- The 22-byte end-of-central-directory record written by `buildZip`. -/
def endRecordBytes (count cdLen offset : Nat) : List Nat :=
  u32le 0x06054b50 ++ u16le 0 ++ u16le 0 ++ u16le count ++ u16le count ++
  u32le cdLen ++ u32le offset ++ u16le 0

/-- `buildZip(entries)`: all local chunks, then the central directory, then the
end record. -/
def buildZip (entries : List ZipEntry) : List Nat :=
  (buildZipAux entries 0).1 ++ (buildZipAux entries 0).2.1.flatten
    ++ endRecordBytes entries.length ((buildZipAux entries 0).2.1.flatten).length
        ((buildZipAux entries 0).2.2)

/-- One local chunk (local header + raw data) of an entry. -/
def localChunk (e : ZipEntry) : List Nat :=
  localHeaderBytes (utf8Bytes e.name) e.data ++ e.data

/-- Byte length of a local chunk: `30 + name length + data length`. -/
def localChunkLen (e : ZipEntry) : Nat :=
  30 + (utf8Bytes e.name).length + e.data.length

/-- Offset of entry `n`'s local header: the sum over all previous entries of
`30 + name length + data length`. -/
def zipOffset (entries : List ZipEntry) (n : Nat) : Nat :=
  ((entries.take n).map localChunkLen).sum

/-- Offset of entry `n`'s record within the central directory. -/
def centralOffset (entries : List ZipEntry) (n : Nat) : Nat :=
  ((entries.take n).map (fun e => 46 + (utf8Bytes e.name).length)).sum

/-- Little-endian 16-bit read at byte position `i`. -/
def readU16 (bs : List Nat) (i : Nat) : Nat :=
  bs.getD i 0 + 256 * bs.getD (i + 1) 0

/-- Little-endian 32-bit read at byte position `i`. -/
def readU32 (bs : List Nat) (i : Nat) : Nat :=
  bs.getD i 0 + 256 * bs.getD (i + 1) 0 + 65536 * bs.getD (i + 2) 0 +
    16777216 * bs.getD (i + 3) 0

/-! ### ZIP layout lemmas -/

theorem localHeaderBytes_length (nameB data : List Nat) :
    (localHeaderBytes nameB data).length = 30 + nameB.length := by
  simp [localHeaderBytes, u32le, u16le]
  omega

theorem centralHeaderBytes_length (nameB data : List Nat) (off : Nat) :
    (centralHeaderBytes nameB data off).length = 46 + nameB.length := by
  simp [centralHeaderBytes, u32le, u16le]
  omega

theorem localChunk_length (e : ZipEntry) : (localChunk e).length = localChunkLen e := by
  simp [localChunk, localChunkLen, localHeaderBytes_length]

theorem buildZipAux_fileBytes : ∀ (entries : List ZipEntry) (off : Nat),
    (buildZipAux entries off).1 = (entries.map localChunk).flatten
  | [], _ => rfl
  | e :: rest, off => by
    simp [buildZipAux, localChunk, buildZipAux_fileBytes rest]

theorem buildZipAux_centrals_length : ∀ (entries : List ZipEntry) (off : Nat),
    (buildZipAux entries off).2.1.length = entries.length
  | [], _ => rfl
  | e :: rest, off => by
    simp [buildZipAux, buildZipAux_centrals_length rest]

theorem zipOffset_cons (e : ZipEntry) (rest : List ZipEntry) (n : Nat) :
    zipOffset (e :: rest) (n + 1) = localChunkLen e + zipOffset rest n := by
  simp [zipOffset, List.take_succ_cons]

theorem buildZipAux_centrals_get : ∀ (entries : List ZipEntry) (off : Nat)
    (n : Nat) (hn : n < entries.length),
    (buildZipAux entries off).2.1.get ⟨n, by rw [buildZipAux_centrals_length]; exact hn⟩
      = centralHeaderBytes (utf8Bytes (entries.get ⟨n, hn⟩).name)
          (entries.get ⟨n, hn⟩).data (off + zipOffset entries n)
  | e :: rest, off, 0, _ => by
    simp [buildZipAux, zipOffset]
  | e :: rest, off, n + 1, hn => by
    have ih := buildZipAux_centrals_get rest
      (off + (localHeaderBytes (utf8Bytes e.name) e.data).length + e.data.length)
      n (Nat.lt_of_succ_lt_succ hn)
    simp only [buildZipAux, List.get_cons_succ]
    rw [ih, zipOffset_cons]
    congr 1
    rw [localHeaderBytes_length]
    simp [localChunkLen]
    omega

theorem buildZipAux_finalOffset : ∀ (entries : List ZipEntry) (off : Nat),
    (buildZipAux entries off).2.2 = off + zipOffset entries entries.length
  | [], off => by simp [buildZipAux, zipOffset]
  | e :: rest, off => by
    have ih := buildZipAux_finalOffset rest
      (off + (localHeaderBytes (utf8Bytes e.name) e.data).length + e.data.length)
    simp only [buildZipAux, List.length_cons]
    rw [ih, zipOffset_cons]
    rw [localHeaderBytes_length]
    simp [localChunkLen]
    omega

theorem fileBytes_length (entries : List ZipEntry) :
    ((entries.map localChunk).flatten).length = zipOffset entries entries.length := by
  induction entries with
  | nil => rfl
  | cons e rest ih =>
    simp only [List.map_cons, List.flatten_cons, List.length_append, ih, List.length_cons]
    rw [zipOffset_cons, localChunk_length]

theorem getD_append_lt (A B : List Nat) (i : Nat) (h : i < A.length) :
    (A ++ B).getD i 0 = A.getD i 0 := by
  simp [List.getD_eq_getElem?_getD, List.getElem?_append_left h]

theorem getD_append_skip (A B : List Nat) (i : Nat) :
    (A ++ B).getD (A.length + i) 0 = B.getD i 0 := by
  simp [List.getD_eq_getElem?_getD, List.getElem?_append_right (Nat.le_add_right _ _),
    Nat.add_sub_cancel_left]

theorem readU16_append_left (A B : List Nat) (i : Nat) (h : i + 2 ≤ A.length) :
    readU16 (A ++ B) i = readU16 A i := by
  unfold readU16
  rw [getD_append_lt A B i (by omega), getD_append_lt A B (i + 1) (by omega)]

theorem readU32_append_left (A B : List Nat) (i : Nat) (h : i + 4 ≤ A.length) :
    readU32 (A ++ B) i = readU32 A i := by
  unfold readU32
  rw [getD_append_lt A B i (by omega), getD_append_lt A B (i + 1) (by omega),
    getD_append_lt A B (i + 2) (by omega), getD_append_lt A B (i + 3) (by omega)]

theorem readU16_append_skip (A B : List Nat) (i : Nat) :
    readU16 (A ++ B) (A.length + i) = readU16 B i := by
  unfold readU16
  have h1 : A.length + i + 1 = A.length + (i + 1) := by omega
  rw [getD_append_skip, h1, getD_append_skip]

theorem readU32_append_skip (A B : List Nat) (i : Nat) :
    readU32 (A ++ B) (A.length + i) = readU32 B i := by
  unfold readU32
  have h1 : A.length + i + 1 = A.length + (i + 1) := by omega
  have h2 : A.length + i + 2 = A.length + (i + 2) := by omega
  have h3 : A.length + i + 3 = A.length + (i + 3) := by omega
  rw [getD_append_skip, h1, getD_append_skip, h2, getD_append_skip, h3, getD_append_skip]

theorem getD_flatten_chunk : ∀ (chunks : List (List Nat)) (n : Nat)
    (hn : n < chunks.length) (k : Nat), k < (chunks.get ⟨n, hn⟩).length →
    chunks.flatten.getD (((chunks.take n).map List.length).sum + k) 0
      = (chunks.get ⟨n, hn⟩).getD k 0
  | c :: cs, 0, _, k, hk => by
    simpa using getD_append_lt c cs.flatten k hk
  | c :: cs, n + 1, hn, k, hk => by
    have ih := getD_flatten_chunk cs n (Nat.lt_of_succ_lt_succ hn) k hk
    simp only [List.flatten_cons, List.take_succ_cons, List.map_cons, List.sum_cons,
      List.get_cons_succ] at *
    rw [Nat.add_assoc, getD_append_skip]
    exact ih

theorem readU16_flatten_chunk (chunks : List (List Nat)) (n : Nat)
    (hn : n < chunks.length) (k : Nat) (hk : k + 2 ≤ (chunks.get ⟨n, hn⟩).length) :
    readU16 chunks.flatten (((chunks.take n).map List.length).sum + k)
      = readU16 (chunks.get ⟨n, hn⟩) k := by
  unfold readU16
  have h1 : ((chunks.take n).map List.length).sum + k + 1
      = ((chunks.take n).map List.length).sum + (k + 1) := by omega
  rw [getD_flatten_chunk chunks n hn k (by omega), h1,
    getD_flatten_chunk chunks n hn (k + 1) (by omega)]

theorem readU32_flatten_chunk (chunks : List (List Nat)) (n : Nat)
    (hn : n < chunks.length) (k : Nat) (hk : k + 4 ≤ (chunks.get ⟨n, hn⟩).length) :
    readU32 chunks.flatten (((chunks.take n).map List.length).sum + k)
      = readU32 (chunks.get ⟨n, hn⟩) k := by
  unfold readU32
  have h1 : ((chunks.take n).map List.length).sum + k + 1
      = ((chunks.take n).map List.length).sum + (k + 1) := by omega
  have h2 : ((chunks.take n).map List.length).sum + k + 2
      = ((chunks.take n).map List.length).sum + (k + 2) := by omega
  have h3 : ((chunks.take n).map List.length).sum + k + 3
      = ((chunks.take n).map List.length).sum + (k + 3) := by omega
  rw [getD_flatten_chunk chunks n hn k (by omega), h1,
    getD_flatten_chunk chunks n hn (k + 1) (by omega), h2,
    getD_flatten_chunk chunks n hn (k + 2) (by omega), h3,
    getD_flatten_chunk chunks n hn (k + 3) (by omega)]

theorem buildZipAux_centrals_map_length : ∀ (entries : List ZipEntry) (off : Nat),
    (buildZipAux entries off).2.1.map List.length
      = entries.map (fun e => 46 + (utf8Bytes e.name).length)
  | [], _ => rfl
  | e :: rest, off => by
    simp [buildZipAux, centralHeaderBytes_length, buildZipAux_centrals_map_length rest]

theorem sum_take_get_le (f : ZipEntry → Nat) : ∀ (l : List ZipEntry) (n : Nat)
    (hn : n < l.length),
    ((l.take n).map f).sum + f (l.get ⟨n, hn⟩) ≤ (l.map f).sum
  | e :: rest, 0, _ => by simp
  | e :: rest, n + 1, hn => by
    have ih := sum_take_get_le f rest n (Nat.lt_of_succ_lt_succ hn)
    simp only [List.take_succ_cons, List.map_cons, List.sum_cons, List.get_cons_succ]
    omega

theorem zipOffset_total (entries : List ZipEntry) :
    zipOffset entries entries.length = (entries.map localChunkLen).sum := by
  simp [zipOffset, List.take_length]

theorem localChunk_lens_sum (entries : List ZipEntry) (n : Nat) :
    (((entries.map localChunk).take n).map List.length).sum = zipOffset entries n := by
  rw [← List.map_take, List.map_map]
  simp only [zipOffset]
  congr 1
  apply List.map_congr_left
  intro e _
  exact localChunk_length e

theorem central_lens_sum (entries : List ZipEntry) (n : Nat) :
    ((((buildZipAux entries 0).2.1).take n).map List.length).sum = centralOffset entries n := by
  rw [List.map_take, buildZipAux_centrals_map_length, ← List.map_take]
  rfl

theorem cd_length (entries : List ZipEntry) :
    ((buildZipAux entries 0).2.1.flatten).length
      = (entries.map (fun e => 46 + (utf8Bytes e.name).length)).sum := by
  rw [List.length_flatten, buildZipAux_centrals_map_length]

theorem buildZip_eq (entries : List ZipEntry) :
    buildZip entries
      = (entries.map localChunk).flatten ++ ((buildZipAux entries 0).2.1.flatten
          ++ endRecordBytes entries.length ((buildZipAux entries 0).2.1.flatten).length
              ((buildZipAux entries 0).2.2)) := by
  unfold buildZip
  rw [buildZipAux_fileBytes, List.append_assoc]

/-- Reading a 32-bit field inside entry `n`'s local header straight out of the
final byte stream. -/
theorem readU32_stream_local (entries : List ZipEntry) (n : Nat)
    (hn : n < entries.length) (k : Nat) (hk : k + 4 ≤ 30) :
    readU32 (buildZip entries) (zipOffset entries n + k)
      = readU32 (localHeaderBytes (utf8Bytes (entries.get ⟨n, hn⟩).name)
          (entries.get ⟨n, hn⟩).data) k := by
  rw [buildZip_eq]
  have hlenn : zipOffset entries n + localChunkLen (entries.get ⟨n, hn⟩)
      ≤ ((entries.map localChunk).flatten).length := by
    rw [fileBytes_length, zipOffset_total]
    exact sum_take_get_le localChunkLen entries n hn
  have hchunk : 30 ≤ localChunkLen (entries.get ⟨n, hn⟩) := by
    unfold localChunkLen
    omega
  rw [readU32_append_left _ _ _ (by omega)]
  have hn' : n < (entries.map localChunk).length := by simpa using hn
  have hpos : zipOffset entries n + k
      = ((((entries.map localChunk).take n).map List.length).sum) + k := by
    rw [localChunk_lens_sum]
  rw [hpos, readU32_flatten_chunk _ n hn' k ?bound]
  case bound =>
    have : (entries.map localChunk).get ⟨n, hn'⟩ = localChunk (entries.get ⟨n, hn⟩) :=
      List.get_map localChunk
    rw [this, localChunk_length]
    omega
  have hget : (entries.map localChunk).get ⟨n, hn'⟩ = localChunk (entries.get ⟨n, hn⟩) :=
    List.get_map localChunk
  rw [hget]
  unfold localChunk
  rw [readU32_append_left _ _ _ (by rw [localHeaderBytes_length]; omega)]

/-- Reading a 16-bit field inside entry `n`'s local header straight out of the
final byte stream. -/
theorem readU16_stream_local (entries : List ZipEntry) (n : Nat)
    (hn : n < entries.length) (k : Nat) (hk : k + 2 ≤ 30) :
    readU16 (buildZip entries) (zipOffset entries n + k)
      = readU16 (localHeaderBytes (utf8Bytes (entries.get ⟨n, hn⟩).name)
          (entries.get ⟨n, hn⟩).data) k := by
  rw [buildZip_eq]
  have hlenn : zipOffset entries n + localChunkLen (entries.get ⟨n, hn⟩)
      ≤ ((entries.map localChunk).flatten).length := by
    rw [fileBytes_length, zipOffset_total]
    exact sum_take_get_le localChunkLen entries n hn
  have hchunk : 30 ≤ localChunkLen (entries.get ⟨n, hn⟩) := by
    unfold localChunkLen
    omega
  rw [readU16_append_left _ _ _ (by omega)]
  have hn' : n < (entries.map localChunk).length := by simpa using hn
  have hpos : zipOffset entries n + k
      = ((((entries.map localChunk).take n).map List.length).sum) + k := by
    rw [localChunk_lens_sum]
  have hget : (entries.map localChunk).get ⟨n, hn'⟩ = localChunk (entries.get ⟨n, hn⟩) :=
    List.get_map localChunk
  rw [hpos, readU16_flatten_chunk _ n hn' k (by rw [hget, localChunk_length]; omega)]
  rw [hget]
  unfold localChunk
  rw [readU16_append_left _ _ _ (by rw [localHeaderBytes_length]; omega)]

/-- Reading a 32-bit field inside entry `n`'s central directory record straight
out of the final byte stream. -/
theorem readU32_stream_central (entries : List ZipEntry) (n : Nat)
    (hn : n < entries.length) (k : Nat) (hk : k + 4 ≤ 46) :
    readU32 (buildZip entries)
        (zipOffset entries entries.length + (centralOffset entries n + k))
      = readU32 (centralHeaderBytes (utf8Bytes (entries.get ⟨n, hn⟩).name)
          (entries.get ⟨n, hn⟩).data (zipOffset entries n)) k := by
  rw [buildZip_eq]
  have hlen : ((entries.map localChunk).flatten).length = zipOffset entries entries.length :=
    fileBytes_length entries
  rw [← hlen, readU32_append_skip]
  have hn' : n < (buildZipAux entries 0).2.1.length := by
    rw [buildZipAux_centrals_length]; exact hn
  have hrec : (buildZipAux entries 0).2.1.get ⟨n, hn'⟩
      = centralHeaderBytes (utf8Bytes (entries.get ⟨n, hn⟩).name)
          (entries.get ⟨n, hn⟩).data (zipOffset entries n) := by
    have h := buildZipAux_centrals_get entries 0 n hn
    simpa using h
  have hcd : centralOffset entries n + (46 + (utf8Bytes (entries.get ⟨n, hn⟩).name).length)
      ≤ ((buildZipAux entries 0).2.1.flatten).length := by
    rw [cd_length]
    exact sum_take_get_le (fun e => 46 + (utf8Bytes e.name).length) entries n hn
  rw [readU32_append_left _ _ _ (by omega)]
  have hpos : centralOffset entries n + k
      = ((((buildZipAux entries 0).2.1).take n).map List.length).sum + k := by
    rw [central_lens_sum]
  rw [hpos, readU32_flatten_chunk _ n hn' k
    (by rw [hrec, centralHeaderBytes_length]; omega)]
  rw [hrec]

/-- Reading a 16-bit field inside entry `n`'s central directory record straight
out of the final byte stream. -/
theorem readU16_stream_central (entries : List ZipEntry) (n : Nat)
    (hn : n < entries.length) (k : Nat) (hk : k + 2 ≤ 46) :
    readU16 (buildZip entries)
        (zipOffset entries entries.length + (centralOffset entries n + k))
      = readU16 (centralHeaderBytes (utf8Bytes (entries.get ⟨n, hn⟩).name)
          (entries.get ⟨n, hn⟩).data (zipOffset entries n)) k := by
  rw [buildZip_eq]
  have hlen : ((entries.map localChunk).flatten).length = zipOffset entries entries.length :=
    fileBytes_length entries
  rw [← hlen, readU16_append_skip]
  have hn' : n < (buildZipAux entries 0).2.1.length := by
    rw [buildZipAux_centrals_length]; exact hn
  have hrec : (buildZipAux entries 0).2.1.get ⟨n, hn'⟩
      = centralHeaderBytes (utf8Bytes (entries.get ⟨n, hn⟩).name)
          (entries.get ⟨n, hn⟩).data (zipOffset entries n) := by
    have h := buildZipAux_centrals_get entries 0 n hn
    simpa using h
  have hcd : centralOffset entries n + (46 + (utf8Bytes (entries.get ⟨n, hn⟩).name).length)
      ≤ ((buildZipAux entries 0).2.1.flatten).length := by
    rw [cd_length]
    exact sum_take_get_le (fun e => 46 + (utf8Bytes e.name).length) entries n hn
  rw [readU16_append_left _ _ _ (by omega)]
  have hpos : centralOffset entries n + k
      = ((((buildZipAux entries 0).2.1).take n).map List.length).sum + k := by
    rw [central_lens_sum]
  rw [hpos, readU16_flatten_chunk _ n hn' k
    (by rw [hrec, centralHeaderBytes_length]; omega)]
  rw [hrec]

/-! ### Field values inside the two header layouts -/

theorem readU16_local_4 (nb d : List Nat) : readU16 (localHeaderBytes nb d) 4 = 20 := rfl

theorem readU16_local_6 (nb d : List Nat) : readU16 (localHeaderBytes nb d) 6 = 0 := rfl

theorem readU16_local_8 (nb d : List Nat) : readU16 (localHeaderBytes nb d) 8 = 0 := rfl

theorem readU32_local_18 (nb d : List Nat) :
    readU32 (localHeaderBytes nb d) 18 = d.length % 4294967296 := by
  show d.length % 256 + 256 * (d.length / 256 % 256) + 65536 * (d.length / 65536 % 256)
      + 16777216 * (d.length / 16777216 % 256) = d.length % 4294967296
  omega

theorem readU32_local_22 (nb d : List Nat) :
    readU32 (localHeaderBytes nb d) 22 = d.length % 4294967296 := by
  show d.length % 256 + 256 * (d.length / 256 % 256) + 65536 * (d.length / 65536 % 256)
      + 16777216 * (d.length / 16777216 % 256) = d.length % 4294967296
  omega

theorem readU16_local_26 (nb d : List Nat) :
    readU16 (localHeaderBytes nb d) 26 = nb.length % 65536 := by
  show nb.length % 256 + 256 * (nb.length / 256 % 256) = nb.length % 65536
  omega

theorem readU16_local_28 (nb d : List Nat) : readU16 (localHeaderBytes nb d) 28 = 0 := rfl

theorem readU16_central_4 (nb d : List Nat) (off : Nat) :
    readU16 (centralHeaderBytes nb d off) 4 = 20 := rfl

theorem readU16_central_6 (nb d : List Nat) (off : Nat) :
    readU16 (centralHeaderBytes nb d off) 6 = 20 := rfl

theorem readU16_central_8 (nb d : List Nat) (off : Nat) :
    readU16 (centralHeaderBytes nb d off) 8 = 0 := rfl

theorem readU32_central_20 (nb d : List Nat) (off : Nat) :
    readU32 (centralHeaderBytes nb d off) 20 = d.length % 4294967296 := by
  show d.length % 256 + 256 * (d.length / 256 % 256) + 65536 * (d.length / 65536 % 256)
      + 16777216 * (d.length / 16777216 % 256) = d.length % 4294967296
  omega

theorem readU32_central_24 (nb d : List Nat) (off : Nat) :
    readU32 (centralHeaderBytes nb d off) 24 = d.length % 4294967296 := by
  show d.length % 256 + 256 * (d.length / 256 % 256) + 65536 * (d.length / 65536 % 256)
      + 16777216 * (d.length / 16777216 % 256) = d.length % 4294967296
  omega

theorem readU32_central_42 (nb d : List Nat) (off : Nat) :
    readU32 (centralHeaderBytes nb d off) 42 = off % 4294967296 := by
  show off % 256 + 256 * (off / 256 % 256) + 65536 * (off / 65536 % 256)
      + 16777216 * (off / 16777216 % 256) = off % 4294967296
  omega

/-- C3: in the byte stream produced by `buildZip`, for every entry list and
every index `n`: the local-header offset recorded at byte 42 of entry `n`'s
central-directory record equals the sum over all previous entries of
`30 + name length + data length` (`zipOffset`); the compressed-size and
uncompressed-size fields of both the local header (bytes 18 and 22) and the
central record (bytes 20 and 24) all equal the raw data length; the
general-purpose flag fields (local byte 6, central byte 8) are zero; and the
version fields (local byte 4, central bytes 4 and 6) all carry the fixed
minimum value 20. -/
theorem zip_stream_layout (entries : List ZipEntry) (n : Nat) (hn : n < entries.length)
    (hoff : zipOffset entries n < 4294967296)
    (hlen : (entries.get ⟨n, hn⟩).data.length < 4294967296) :
    readU32 (buildZip entries)
        (zipOffset entries entries.length + (centralOffset entries n + 42))
      = zipOffset entries n
    ∧ readU32 (buildZip entries) (zipOffset entries n + 18)
      = (entries.get ⟨n, hn⟩).data.length
    ∧ readU32 (buildZip entries) (zipOffset entries n + 22)
      = (entries.get ⟨n, hn⟩).data.length
    ∧ readU32 (buildZip entries)
        (zipOffset entries entries.length + (centralOffset entries n + 20))
      = (entries.get ⟨n, hn⟩).data.length
    ∧ readU32 (buildZip entries)
        (zipOffset entries entries.length + (centralOffset entries n + 24))
      = (entries.get ⟨n, hn⟩).data.length
    ∧ readU16 (buildZip entries) (zipOffset entries n + 6) = 0
    ∧ readU16 (buildZip entries)
        (zipOffset entries entries.length + (centralOffset entries n + 8)) = 0
    ∧ readU16 (buildZip entries) (zipOffset entries n + 4) = 20
    ∧ readU16 (buildZip entries)
        (zipOffset entries entries.length + (centralOffset entries n + 4)) = 20
    ∧ readU16 (buildZip entries)
        (zipOffset entries entries.length + (centralOffset entries n + 6)) = 20 := by
  refine ⟨?_, ?_, ?_, ?_, ?_, ?_, ?_, ?_, ?_, ?_⟩
  · rw [readU32_stream_central entries n hn 42 (by omega), readU32_central_42,
      Nat.mod_eq_of_lt hoff]
  · rw [readU32_stream_local entries n hn 18 (by omega), readU32_local_18,
      Nat.mod_eq_of_lt hlen]
  · rw [readU32_stream_local entries n hn 22 (by omega), readU32_local_22,
      Nat.mod_eq_of_lt hlen]
  · rw [readU32_stream_central entries n hn 20 (by omega), readU32_central_20,
      Nat.mod_eq_of_lt hlen]
  · rw [readU32_stream_central entries n hn 24 (by omega), readU32_central_24,
      Nat.mod_eq_of_lt hlen]
  · rw [readU16_stream_local entries n hn 6 (by omega), readU16_local_6]
  · rw [readU16_stream_central entries n hn 8 (by omega), readU16_central_8]
  · rw [readU16_stream_local entries n hn 4 (by omega), readU16_local_4]
  · rw [readU16_stream_central entries n hn 4 (by omega), readU16_central_4]
  · rw [readU16_stream_central entries n hn 6 (by omega), readU16_central_6]

/-- Witness for C3 at a concrete two-entry archive, checking the second
entry. -/
theorem zip_stream_layout_witness :
    (1 < ([⟨"a", [1, 2, 3]⟩, ⟨"bc", [7]⟩] : List ZipEntry).length)
    ∧ readU32 (buildZip [⟨"a", [1, 2, 3]⟩, ⟨"bc", [7]⟩]) (zipOffset [⟨"a", [1, 2, 3]⟩, ⟨"bc", [7]⟩] 1 + 18) = 1 := by
  refine ⟨by decide, ?_⟩
  have h := zip_stream_layout [⟨"a", [1, 2, 3]⟩, ⟨"bc", [7]⟩] 1 (by decide)
    (by decide) (by decide)
  exact h.2.1

/-! ## EPUB builder (part_004, `buildEpubBuffer`) -/

/-- One character of `escapeHtml`.  The source applies five global
single-character regex replacements in order (`&`, `<`, `>`, `"`, `'`); no
replacement text contains a character that a later pass replaces, so the
sequential passes are equivalent to this one character-wise substitution. -/
def escapeChar (c : Char) : List Char :=
  if c = '&' then "&amp;".data
  else if c = '<' then "&lt;".data
  else if c = '>' then "&gt;".data
  else if c = '"' then "&quot;".data
  else if c = '\'' then "&#39;".data
  else [c]

/-- `escapeHtml` from part_004. -/
def escapeHtml (input : String) : String :=
  String.mk ((input.data.map escapeChar).flatten)

/-- JavaScript `String.prototype.trim()` on a character list. -/
def trimChars (l : List Char) : List Char :=
  ((l.dropWhile Char.isWhitespace).reverse.dropWhile Char.isWhitespace).reverse

/-- JavaScript `String.prototype.trim()`. -/
def jsTrim (s : String) : String :=
  String.mk (trimChars s.data)

/-- The `options.field?.trim() || "default"` idiom: a missing value, or a value
that is empty after trimming (empty strings are falsy), yields the default. -/
def strOrDefault (s : Option String) (dflt : String) : String :=
  match s with
  | none => dflt
  | some v => if jsTrim v = "" then dflt else jsTrim v

structure EpubResource where
  id : String
  href : String
  mediaType : String
  data : List Nat
  properties : Option String

/-- `EpubOptions`.  The TypeScript fields `title`, `author`, `language` and
`bodyHtml` are declared `string` but the builder guards each with `?.`/`||`,
so the runtime-possible missing value is modelled with `Option`. -/
structure EpubOptions where
  title : Option String
  author : Option String
  language : Option String
  bodyHtml : Option String
  resources : Option (List EpubResource)
  coverResource : Option EpubResource
  includeTitleInContent : Option Bool

def epubTitle (o : EpubOptions) : String := strOrDefault o.title "Article"

def epubAuthor (o : EpubOptions) : String := strOrDefault o.author "Inconnu"

def epubLanguage (o : EpubOptions) : String := strOrDefault o.language "en"

/-- `coverResource ? [coverResource, ...resources] : resources`. -/
def epubAllResources (o : EpubOptions) : List EpubResource :=
  match o.coverResource with
  | some c => c :: o.resources.getD []
  | none => o.resources.getD []

def containerXml : String :=
  "<?xml version=\"1.0\" encoding=\"UTF-8\"?>\n"
  ++ "<container version=\"1.0\" xmlns=\"urn:oasis:names:tc:opendocument:xmlns:container\">\n"
  ++ "  <rootfiles>\n"
  ++ "    <rootfile full-path=\"OEBPS/content.opf\" media-type=\"application/oebps-package+xml\"/>\n"
  ++ "  </rootfiles>\n"
  ++ "</container>\n"

/-- One `<item .../>` manifest line for a resource (an empty `properties`
string is falsy in JavaScript, hence omitted like a missing one). -/
def manifestItem (r : EpubResource) : String :=
  "    <item id=\"" ++ escapeHtml r.id ++ "\" href=\"" ++ escapeHtml r.href
  ++ "\" media-type=\"" ++ escapeHtml r.mediaType ++ "\""
  ++ (match r.properties with
      | some p => if p = "" then "" else " properties=\"" ++ escapeHtml p ++ "\""
      | none => "")
  ++ "/>"

def manifestItems (rs : List EpubResource) : String :=
  String.intercalate "\n" (rs.map manifestItem)

def manifestBlock (rs : List EpubResource) : String :=
  if manifestItems rs = "" then "" else manifestItems rs ++ "\n"

def coverMeta (cover : Option EpubResource) : String :=
  match cover with
  | some c => "    <meta name=\"cover\" content=\"" ++ escapeHtml c.id ++ "\"/>\n"
  | none => ""

def coverManifest (cover : Option EpubResource) : String :=
  match cover with
  | some _ =>
    "    <item id=\"cover\" href=\"cover.xhtml\" media-type=\"application/xhtml+xml\"/>\n"
  | none => ""

def coverSpine (cover : Option EpubResource) : String :=
  match cover with
  | some _ => "    <itemref idref=\"cover\"/>\n"
  | none => ""

def contentOpf (uuid : String) (o : EpubOptions) : String :=
  "<?xml version=\"1.0\" encoding=\"UTF-8\"?>\n"
  ++ "<package version=\"3.0\" xmlns=\"http://www.idpf.org/2007/opf\" unique-identifier=\"bookid\">\n"
  ++ "  <metadata xmlns:dc=\"http://purl.org/dc/elements/1.1/\">\n"
  ++ "    <dc:identifier id=\"bookid\">urn:uuid:" ++ uuid ++ "</dc:identifier>\n"
  ++ "    <dc:title>" ++ escapeHtml (epubTitle o) ++ "</dc:title>\n"
  ++ "    <dc:language>" ++ escapeHtml (epubLanguage o) ++ "</dc:language>\n"
  ++ "    <dc:creator>" ++ escapeHtml (epubAuthor o) ++ "</dc:creator>\n"
  ++ coverMeta o.coverResource
  ++ "  </metadata>\n"
  ++ "  <manifest>\n"
  ++ "    <item id=\"nav\" properties=\"nav\" href=\"nav.xhtml\" media-type=\"application/xhtml+xml\"/>\n"
  ++ coverManifest o.coverResource
  ++ "    <item id=\"chapter\" href=\"chapter.xhtml\" media-type=\"application/xhtml+xml\"/>\n"
  ++ manifestBlock (epubAllResources o)
  ++ "  </manifest>\n"
  ++ "  <spine>\n"
  ++ coverSpine o.coverResource
  ++ "    <itemref idref=\"chapter\"/>\n"
  ++ "  </spine>\n"
  ++ "</package>\n"

def navXhtml (o : EpubOptions) : String :=
  "<?xml version=\"1.0\" encoding=\"UTF-8\"?>\n"
  ++ "<html xmlns=\"http://www.w3.org/1999/xhtml\" xmlns:epub=\"http://www.idpf.org/2007/ops\" lang=\""
  ++ escapeHtml (epubLanguage o) ++ "\">\n"
  ++ "  <head>\n"
  ++ "    <title>" ++ escapeHtml (epubTitle o) ++ "</title>\n"
  ++ "  </head>\n"
  ++ "  <body>\n"
  ++ "    <nav epub:type=\"toc\" id=\"toc\">\n"
  ++ "      <ol>\n"
  ++ "        <li><a href=\"chapter.xhtml\">" ++ escapeHtml (epubTitle o) ++ "</a></li>\n"
  ++ "      </ol>\n"
  ++ "    </nav>\n"
  ++ "  </body>\n"
  ++ "</html>\n"

/-- `includeTitleInContent ?? true`. -/
def includeTitle (o : EpubOptions) : Bool :=
  o.includeTitleInContent.getD true

def chapterXhtml (o : EpubOptions) : String :=
  "<?xml version=\"1.0\" encoding=\"UTF-8\"?>\n"
  ++ "<html xmlns=\"http://www.w3.org/1999/xhtml\" lang=\"" ++ escapeHtml (epubLanguage o) ++ "\">\n"
  ++ "  <head>\n"
  ++ "    <title>" ++ escapeHtml (epubTitle o) ++ "</title>\n"
  ++ "    <meta charset=\"UTF-8\" />\n"
  ++ "    <style>\n"
  ++ "      h1 \x7b font-size: 1.2em; margin: 0 0 0.6em 0; line-height: 1.2; \x7d\n"
  ++ "      header \x7b margin: 0; \x7d\n"
  ++ "    </style>\n"
  ++ "  </head>\n"
  ++ "  <body>\n"
  ++ (if includeTitle o then
        "    <header>\n" ++ "      <h1>" ++ escapeHtml (epubTitle o) ++ "</h1>\n" ++ "    </header>\n"
      else "")
  ++ "    <article>\n"
  ++ o.bodyHtml.getD "" ++ "\n"
  ++ "    </article>\n"
  ++ "  </body>\n"
  ++ "</html>\n"

def coverXhtml (o : EpubOptions) (c : EpubResource) : String :=
  "<?xml version=\"1.0\" encoding=\"UTF-8\"?>\n"
  ++ "<html xmlns=\"http://www.w3.org/1999/xhtml\" lang=\"" ++ escapeHtml (epubLanguage o) ++ "\">\n"
  ++ "  <head>\n"
  ++ "    <title>" ++ escapeHtml (epubTitle o) ++ "</title>\n"
  ++ "    <meta charset=\"UTF-8\" />\n"
  ++ "    <style>\n"
  ++ "      html, body \x7b margin: 0; padding: 0; height: 100%; \x7d\n"
  ++ "      img \x7b display: block; width: 100%; height: 100%; object-fit: contain; \x7d\n"
  ++ "    </style>\n"
  ++ "  </head>\n"
  ++ "  <body>\n"
  ++ "    <img src=\"" ++ escapeHtml c.href ++ "\" alt=\"" ++ escapeHtml (epubTitle o) ++ "\"/>\n"
  ++ "  </body>\n"
  ++ "</html>\n"

/-- The entry list `buildEpubBuffer` hands to `buildZip`.  `crypto.randomUUID()`
is modelled as the explicit `uuid` parameter. -/
def buildEpubEntries (uuid : String) (o : EpubOptions) : List ZipEntry :=
  [⟨"mimetype", utf8Bytes "application/epub+zip"⟩,
   ⟨"META-INF/container.xml", utf8Bytes containerXml⟩,
   ⟨"OEBPS/content.opf", utf8Bytes (contentOpf uuid o)⟩,
   ⟨"OEBPS/nav.xhtml", utf8Bytes (navXhtml o)⟩]
  ++ (match o.coverResource with
      | some c => [⟨"OEBPS/cover.xhtml", utf8Bytes (coverXhtml o c)⟩]
      | none => [])
  ++ [⟨"OEBPS/chapter.xhtml", utf8Bytes (chapterXhtml o)⟩]
  ++ (epubAllResources o).map (fun r => ⟨"OEBPS/" ++ r.href, r.data⟩)

/-- `buildEpubBuffer` (a pure computation; its `Promise` wrapper and the random
`uuid` are externalised). -/
def buildEpubBuffer (uuid : String) (o : EpubOptions) : List Nat :=
  buildZip (buildEpubEntries uuid o)

/-! ### C2: the mimetype entry -/

def mimetypeEntry : ZipEntry := ⟨"mimetype", utf8Bytes "application/epub+zip"⟩

theorem mimetypeChunk_length : (localChunk mimetypeEntry).length = 58 := by decide

theorem buildEpubEntries_cons (uuid : String) (o : EpubOptions) :
    ∃ t, buildEpubEntries uuid o = mimetypeEntry :: t :=
  ⟨_, rfl⟩

/-- C2: for every input to the container builder, the first entry of the
archive is named `mimetype`, it is stored uncompressed (method field 0) with
no extra per-entry fields beyond the minimal 30-byte local header (extra
length field 0), and its data — the bytes at offsets 38–57, right after the
30-byte header and the 8-byte name — is exactly the 20-byte ASCII string
`application/epub+zip`. -/
theorem epub_mimetype_first (uuid : String) (o : EpubOptions) :
    (buildEpubEntries uuid o).head? = some mimetypeEntry
    ∧ (buildEpubBuffer uuid o).take 58
      = localHeaderBytes (utf8Bytes "mimetype") (utf8Bytes "application/epub+zip")
        ++ utf8Bytes "application/epub+zip"
    ∧ readU16 (buildEpubBuffer uuid o) 8 = 0
    ∧ readU16 (buildEpubBuffer uuid o) 28 = 0
    ∧ (utf8Bytes "application/epub+zip").length = 20
    ∧ (utf8Bytes "application/epub+zip").all (fun b => b < 128) = true := by
  obtain ⟨t, ht⟩ := buildEpubEntries_cons uuid o
  have hstream : buildEpubBuffer uuid o
      = localChunk mimetypeEntry
        ++ (((t.map localChunk).flatten)
            ++ ((buildZipAux (mimetypeEntry :: t) 0).2.1.flatten
              ++ endRecordBytes (mimetypeEntry :: t).length
                  ((buildZipAux (mimetypeEntry :: t) 0).2.1.flatten).length
                  ((buildZipAux (mimetypeEntry :: t) 0).2.2))) := by
    unfold buildEpubBuffer
    rw [ht, buildZip_eq]
    simp [List.append_assoc]
  refine ⟨by rw [ht]; rfl, ?_, ?_, ?_, by decide, by decide⟩
  · rw [hstream, List.take_left' mimetypeChunk_length]
    rfl
  · rw [hstream, readU16_append_left _ _ 8 (by rw [mimetypeChunk_length]; omega)]
    decide
  · rw [hstream, readU16_append_left _ _ 28 (by rw [mimetypeChunk_length]; omega)]
    decide

/-! ### C4: order of the archive entries -/

/-- A concrete set of builder options that carries a cover resource. -/
def coverOpts : EpubOptions :=
  ⟨some "T", some "A", some "en", some "<p>x</p>", some [],
   some ⟨"cover-image", "cover.jpg", "image/jpeg", [1, 2], none⟩, some true⟩

/-- C4 counterexample: with a cover resource present, the claimed order
(content document before the cover-only document) does not hold — the builder
emits `OEBPS/cover.xhtml` *before* `OEBPS/chapter.xhtml`. -/
theorem epub_entry_order_counterexample :
    (buildEpubEntries "u" coverOpts).map ZipEntry.name
      ≠ ["mimetype", "META-INF/container.xml", "OEBPS/content.opf", "OEBPS/nav.xhtml",
         "OEBPS/chapter.xhtml", "OEBPS/cover.xhtml", "OEBPS/cover.jpg"]
    ∧ (buildEpubEntries "u" coverOpts).map ZipEntry.name
      = ["mimetype", "META-INF/container.xml", "OEBPS/content.opf", "OEBPS/nav.xhtml",
         "OEBPS/cover.xhtml", "OEBPS/chapter.xhtml", "OEBPS/cover.jpg"] := by
  constructor
  · decide
  · decide

/-- C4 (amended): the archive entries appear in this fixed order — the
mimetype literal, the XML container descriptor, the package document, the
navigation document, then a cover-only document if and only if a cover
resource is present, then the content document with the body markup, then the
raw bytes of the cover resource (when present) followed by every other
resource at its declared container path. -/
theorem epub_entry_order (uuid : String) (o : EpubOptions) :
    ((buildEpubEntries uuid o).map ZipEntry.name
      = ["mimetype", "META-INF/container.xml", "OEBPS/content.opf", "OEBPS/nav.xhtml"]
        ++ (match o.coverResource with | some _ => ["OEBPS/cover.xhtml"] | none => [])
        ++ ["OEBPS/chapter.xhtml"]
        ++ (epubAllResources o).map (fun r => "OEBPS/" ++ r.href))
    ∧ ((buildEpubEntries uuid o).drop
          (match o.coverResource with | some _ => 6 | none => 5)
      = (epubAllResources o).map (fun r => ⟨"OEBPS/" ++ r.href, r.data⟩)) := by
  cases h : o.coverResource with
  | none => simp [buildEpubEntries, h]
  | some c => simp [buildEpubEntries, h]

/-! ### C10: metadata defaults -/

theorem escapeChar_ne_nil (c : Char) : escapeChar c ≠ [] := by
  unfold escapeChar
  split_ifs <;> simp

theorem escapeHtml_ne_empty (s : String) (h : s ≠ "") : escapeHtml s ≠ "" := by
  intro hc
  apply h
  unfold escapeHtml at hc
  have hdata : (s.data.map escapeChar).flatten = [] := by
    have h2 := congrArg String.data hc
    simpa using h2
  rw [List.flatten_eq_nil_iff] at hdata
  cases hs : s.data with
  | nil =>
    apply String.ext
    simp [hs]
  | cons c cs =>
    exact absurd (hdata (escapeChar c) (by simp [hs])) (escapeChar_ne_nil c)

theorem strOrDefault_ne_empty (s : Option String) (dflt : String) (hd : dflt ≠ "") :
    strOrDefault s dflt ≠ "" := by
  cases s with
  | none => simpa [strOrDefault] using hd
  | some v =>
    simp only [strOrDefault]
    split_ifs with h
    · exact hd
    · exact h

/-- C10: a missing or whitespace-only title falls back to `"Article"`, author
to `"Inconnu"`, language to `"en"`; the substituted values are used
(HTML-escaped) in the package metadata, the navigation document, and the
content heading, and the escaped values are never empty. -/
theorem epub_default_metadata (uuid : String) (o : EpubOptions) :
    ((o.title = none ∨ ∃ s, o.title = some s ∧ jsTrim s = "") → epubTitle o = "Article")
    ∧ ((o.author = none ∨ ∃ s, o.author = some s ∧ jsTrim s = "") → epubAuthor o = "Inconnu")
    ∧ ((o.language = none ∨ ∃ s, o.language = some s ∧ jsTrim s = "") → epubLanguage o = "en")
    ∧ escapeHtml (epubTitle o) ≠ "" ∧ escapeHtml (epubAuthor o) ≠ ""
    ∧ escapeHtml (epubLanguage o) ≠ ""
    ∧ (∃ a b, contentOpf uuid o
        = a ++ ("    <dc:title>" ++ escapeHtml (epubTitle o) ++ "</dc:title>\n") ++ b)
    ∧ (∃ a b, contentOpf uuid o
        = a ++ ("    <dc:creator>" ++ escapeHtml (epubAuthor o) ++ "</dc:creator>\n") ++ b)
    ∧ (∃ a b, contentOpf uuid o
        = a ++ ("    <dc:language>" ++ escapeHtml (epubLanguage o) ++ "</dc:language>\n") ++ b)
    ∧ (∃ a b, navXhtml o = a ++ escapeHtml (epubTitle o) ++ b)
    ∧ (includeTitle o = true →
        ∃ a b, chapterXhtml o
          = a ++ ("      <h1>" ++ escapeHtml (epubTitle o) ++ "</h1>\n") ++ b) := by
  refine ⟨?_, ?_, ?_, ?_, ?_, ?_, ?_, ?_, ?_, ?_, ?_⟩
  · rintro (h | ⟨s, hs, ht⟩)
    · simp [epubTitle, strOrDefault, h]
    · simp [epubTitle, strOrDefault, hs, ht]
  · rintro (h | ⟨s, hs, ht⟩)
    · simp [epubAuthor, strOrDefault, h]
    · simp [epubAuthor, strOrDefault, hs, ht]
  · rintro (h | ⟨s, hs, ht⟩)
    · simp [epubLanguage, strOrDefault, h]
    · simp [epubLanguage, strOrDefault, hs, ht]
  · exact escapeHtml_ne_empty _ (strOrDefault_ne_empty _ _ (by decide))
  · exact escapeHtml_ne_empty _ (strOrDefault_ne_empty _ _ (by decide))
  · exact escapeHtml_ne_empty _ (strOrDefault_ne_empty _ _ (by decide))
  · refine ⟨"<?xml version=\"1.0\" encoding=\"UTF-8\"?>\n"
      ++ "<package version=\"3.0\" xmlns=\"http://www.idpf.org/2007/opf\" unique-identifier=\"bookid\">\n"
      ++ "  <metadata xmlns:dc=\"http://purl.org/dc/elements/1.1/\">\n"
      ++ "    <dc:identifier id=\"bookid\">urn:uuid:" ++ uuid ++ "</dc:identifier>\n",
      "    <dc:language>" ++ escapeHtml (epubLanguage o) ++ "</dc:language>\n"
      ++ "    <dc:creator>" ++ escapeHtml (epubAuthor o) ++ "</dc:creator>\n"
      ++ coverMeta o.coverResource
      ++ "  </metadata>\n"
      ++ "  <manifest>\n"
      ++ "    <item id=\"nav\" properties=\"nav\" href=\"nav.xhtml\" media-type=\"application/xhtml+xml\"/>\n"
      ++ coverManifest o.coverResource
      ++ "    <item id=\"chapter\" href=\"chapter.xhtml\" media-type=\"application/xhtml+xml\"/>\n"
      ++ manifestBlock (epubAllResources o)
      ++ "  </manifest>\n"
      ++ "  <spine>\n"
      ++ coverSpine o.coverResource
      ++ "    <itemref idref=\"chapter\"/>\n"
      ++ "  </spine>\n"
      ++ "</package>\n", ?_⟩
    simp only [contentOpf, String.append_assoc]
  · refine ⟨"<?xml version=\"1.0\" encoding=\"UTF-8\"?>\n"
      ++ "<package version=\"3.0\" xmlns=\"http://www.idpf.org/2007/opf\" unique-identifier=\"bookid\">\n"
      ++ "  <metadata xmlns:dc=\"http://purl.org/dc/elements/1.1/\">\n"
      ++ "    <dc:identifier id=\"bookid\">urn:uuid:" ++ uuid ++ "</dc:identifier>\n"
      ++ "    <dc:title>" ++ escapeHtml (epubTitle o) ++ "</dc:title>\n"
      ++ "    <dc:language>" ++ escapeHtml (epubLanguage o) ++ "</dc:language>\n",
      coverMeta o.coverResource
      ++ "  </metadata>\n"
      ++ "  <manifest>\n"
      ++ "    <item id=\"nav\" properties=\"nav\" href=\"nav.xhtml\" media-type=\"application/xhtml+xml\"/>\n"
      ++ coverManifest o.coverResource
      ++ "    <item id=\"chapter\" href=\"chapter.xhtml\" media-type=\"application/xhtml+xml\"/>\n"
      ++ manifestBlock (epubAllResources o)
      ++ "  </manifest>\n"
      ++ "  <spine>\n"
      ++ coverSpine o.coverResource
      ++ "    <itemref idref=\"chapter\"/>\n"
      ++ "  </spine>\n"
      ++ "</package>\n", ?_⟩
    simp only [contentOpf, String.append_assoc]
  · refine ⟨"<?xml version=\"1.0\" encoding=\"UTF-8\"?>\n"
      ++ "<package version=\"3.0\" xmlns=\"http://www.idpf.org/2007/opf\" unique-identifier=\"bookid\">\n"
      ++ "  <metadata xmlns:dc=\"http://purl.org/dc/elements/1.1/\">\n"
      ++ "    <dc:identifier id=\"bookid\">urn:uuid:" ++ uuid ++ "</dc:identifier>\n"
      ++ "    <dc:title>" ++ escapeHtml (epubTitle o) ++ "</dc:title>\n",
      "    <dc:creator>" ++ escapeHtml (epubAuthor o) ++ "</dc:creator>\n"
      ++ coverMeta o.coverResource
      ++ "  </metadata>\n"
      ++ "  <manifest>\n"
      ++ "    <item id=\"nav\" properties=\"nav\" href=\"nav.xhtml\" media-type=\"application/xhtml+xml\"/>\n"
      ++ coverManifest o.coverResource
      ++ "    <item id=\"chapter\" href=\"chapter.xhtml\" media-type=\"application/xhtml+xml\"/>\n"
      ++ manifestBlock (epubAllResources o)
      ++ "  </manifest>\n"
      ++ "  <spine>\n"
      ++ coverSpine o.coverResource
      ++ "    <itemref idref=\"chapter\"/>\n"
      ++ "  </spine>\n"
      ++ "</package>\n", ?_⟩
    simp only [contentOpf, String.append_assoc]
  · refine ⟨"<?xml version=\"1.0\" encoding=\"UTF-8\"?>\n"
      ++ "<html xmlns=\"http://www.w3.org/1999/xhtml\" xmlns:epub=\"http://www.idpf.org/2007/ops\" lang=\""
      ++ escapeHtml (epubLanguage o) ++ "\">\n"
      ++ "  <head>\n"
      ++ "    <title>",
      "</title>\n"
      ++ "  </head>\n"
      ++ "  <body>\n"
      ++ "    <nav epub:type=\"toc\" id=\"toc\">\n"
      ++ "      <ol>\n"
      ++ "        <li><a href=\"chapter.xhtml\">" ++ escapeHtml (epubTitle o) ++ "</a></li>\n"
      ++ "      </ol>\n"
      ++ "    </nav>\n"
      ++ "  </body>\n"
      ++ "</html>\n", ?_⟩
    simp only [navXhtml, String.append_assoc]
  · intro hinc
    refine ⟨"<?xml version=\"1.0\" encoding=\"UTF-8\"?>\n"
      ++ "<html xmlns=\"http://www.w3.org/1999/xhtml\" lang=\"" ++ escapeHtml (epubLanguage o) ++ "\">\n"
      ++ "  <head>\n"
      ++ "    <title>" ++ escapeHtml (epubTitle o) ++ "</title>\n"
      ++ "    <meta charset=\"UTF-8\" />\n"
      ++ "    <style>\n"
      ++ "      h1 \x7b font-size: 1.2em; margin: 0 0 0.6em 0; line-height: 1.2; \x7d\n"
      ++ "      header \x7b margin: 0; \x7d\n"
      ++ "    </style>\n"
      ++ "  </head>\n"
      ++ "  <body>\n"
      ++ "    <header>\n",
      "    </header>\n"
      ++ "    <article>\n"
      ++ o.bodyHtml.getD "" ++ "\n"
      ++ "    </article>\n"
      ++ "  </body>\n"
      ++ "</html>\n", ?_⟩
    simp only [chapterXhtml, hinc, eq_self_iff_true, ite_true, String.append_assoc]

/-- Witness for C10: concrete options with a missing title and a
whitespace-only author take the defaults. -/
theorem epub_default_metadata_witness :
    epubTitle ⟨none, some "  ", none, none, none, none, none⟩ = "Article"
    ∧ epubAuthor ⟨none, some "  ", none, none, none, none, none⟩ = "Inconnu"
    ∧ epubLanguage ⟨none, some "  ", none, none, none, none, none⟩ = "en" :=
  ⟨(epub_default_metadata "u" _).1 (Or.inl rfl),
   (epub_default_metadata "u" _).2.1 (Or.inr ⟨"  ", rfl, by decide⟩),
   (epub_default_metadata "u" _).2.2.1 (Or.inl rfl)⟩

/-! ## Dot-stuffing (send-to-kindle, `dotStuff`) -/

/-- Attach a character to the front of the first piece of a split. -/
def consHead (c : Char) : List (List Char) → List (List Char)
  | [] => [[c]]
  | l :: ls => (c :: l) :: ls

/-- `message.split(/\r?\n/)`: a line ends at `\n` or at `\r\n`; a lone `\r`
stays inside its line. -/
def splitCRLF : List Char → List (List Char)
  | [] => [[]]
  | [c] => if c = '\n' then [[], []] else [[c]]
  | c :: d :: rest =>
    if c = '\n' then [] :: splitCRLF (d :: rest)
    else if c = '\r' ∧ d = '\n' then [] :: splitCRLF rest
    else consHead c (splitCRLF (d :: rest))

/-- `.join("\r\n")` on split pieces. -/
def joinCRLF : List (List Char) → List Char
  | [] => []
  | [l] => l
  | l :: l2 :: ls => l ++ '\r' :: '\n' :: joinCRLF (l2 :: ls)

/-- `line.startsWith(".") ? "." + line : line`. -/
def stuffLine (l : List Char) : List Char :=
  if l.head? = some '.' then '.' :: l else l

/-- `dotStuff` from send-to-kindle: split on `/\r?\n/`, double any leading
period, re-join with CRLF. -/
def dotStuff (message : String) : String :=
  String.mk (joinCRLF ((splitCRLF message.data).map stuffLine))

/-! ## SMTP client model (send-to-kindle, `SmtpClient`)

The asynchronous socket client is embedded as explicit state passing: the
client state carries what the class fields hold (`socket` presence, the
`pending` slot, `queuedResponses`), each awaited response is resolved by one
`ServerOutcome` (an assembled reply, the timeout firing, or a socket error
event), and the byte writes/teardowns a method performs are collected in an
action list. -/

structure SmtpResponse where
  code : Nat
  lines : List String
deriving DecidableEq

inductive SmtpError where
  | unexpectedResponse (code : Nat)
  | timedOut
  | noConnection
  | alreadyPending
  | transport
deriving DecidableEq

/-- The `Error` message text each failure carries in the source. -/
def SmtpError.message : SmtpError → String
  | .unexpectedResponse code => "Unexpected SMTP response (" ++ toString code ++ ")."
  | .timedOut => "SMTP connection timed out."
  | .noConnection => "SMTP connection unavailable."
  | .alreadyPending => "An SMTP response is already pending."
  | .transport => "socket error"

inductive ClientAction where
  | write (data : String)
  | endSocket
  | destroySocket
deriving DecidableEq

/-- What resolves one awaited `readResponse`. -/
inductive ServerOutcome where
  | reply (r : SmtpResponse)
  | timeout
  | transportError
deriving DecidableEq

structure ClientState where
  socketPresent : Bool
  pendingBusy : Bool
  queuedResponses : List SmtpResponse
deriving DecidableEq

/-- `expected && !expected.includes(code)` check: `none` accepts anything. -/
def expectedOk (expected : Option (List Nat)) (code : Nat) : Bool :=
  match expected with
  | none => true
  | some es => es.contains code

/-- `readResponse(expected)`: rejects when a response is already pending,
serves a queued response first, otherwise waits for the outcome; a reply with
a code outside `expected` rejects with the numeric code. -/
def readResponseM (st : ClientState) (expected : Option (List Nat)) (o : ServerOutcome) :
    Except SmtpError (SmtpResponse × ClientState) :=
  if st.pendingBusy then .error .alreadyPending
  else
    match st.queuedResponses with
    | r :: rest =>
      if expectedOk expected r.code then .ok (r, { st with queuedResponses := rest })
      else .error (.unexpectedResponse r.code)
    | [] =>
      match o with
      | .reply r =>
        if expectedOk expected r.code then .ok (r, st)
        else .error (.unexpectedResponse r.code)
      | .timeout => .error .timedOut
      | .transportError => .error .transport

/-- `write`: throws `SMTP connection unavailable.` without a socket, otherwise
performs one socket write. -/
def writeM (st : ClientState) (data : String) : Except SmtpError (List ClientAction) :=
  if st.socketPresent then .ok [.write data] else .error .noConnection

/-- `sendCommand`: write `command\r\n`, then await the response.  Returns
the actions that happened (the write occurs even when the wait then fails)
with the outcome. -/
def sendCommandM (st : ClientState) (command : String) (expected : Option (List Nat))
    (o : ServerOutcome) : List ClientAction × Except SmtpError (SmtpResponse × ClientState) :=
  match writeM st (command ++ "\r\n") with
  | .error e => ([], .error e)
  | .ok acts =>
    match readResponseM st expected o with
    | .error e => (acts, .error e)
    | .ok r => (acts, .ok r)

/-- Successive `ServerOutcome`s consumed by a multi-command operation; a
script that runs out behaves like a response that never arrives (timeout). -/
def scriptGet (script : List ServerOutcome) (i : Nat) : ServerOutcome :=
  script.getD i .timeout

/-- `sendMail`: `MAIL FROM` (250), `RCPT TO` (250/251), `DATA` (354), the
dot-stuffed message via `sendData` (a bare write of `data + "\r\n"`, no
response awaited), then `.` (250). -/
def sendMail (st : ClientState) (sender rcpt message : String)
    (script : List ServerOutcome) : List ClientAction × Except SmtpError ClientState :=
  let s1 := sendCommandM st ("MAIL FROM:<" ++ sender ++ ">") (some [250]) (scriptGet script 0)
  match s1.2 with
  | .error e => (s1.1, .error e)
  | .ok (_, st1) =>
    let s2 := sendCommandM st1 ("RCPT TO:<" ++ rcpt ++ ">") (some [250, 251]) (scriptGet script 1)
    match s2.2 with
    | .error e => (s1.1 ++ s2.1, .error e)
    | .ok (_, st2) =>
      let s3 := sendCommandM st2 "DATA" (some [354]) (scriptGet script 2)
      match s3.2 with
      | .error e => (s1.1 ++ s2.1 ++ s3.1, .error e)
      | .ok (_, st3) =>
        match writeM st3 (dotStuff message ++ "\r\n") with
        | .error e => (s1.1 ++ s2.1 ++ s3.1, .error e)
        | .ok dataActs =>
          let s4 := sendCommandM st3 "." (some [250]) (scriptGet script 3)
          match s4.2 with
          | .error e => (s1.1 ++ s2.1 ++ s3.1 ++ dataActs ++ s4.1, .error e)
          | .ok (_, st4) => (s1.1 ++ s2.1 ++ s3.1 ++ dataActs ++ s4.1, .ok st4)

/-- The `try sendCommand("QUIT", [221, 250])` inside `quit`. -/
def quitAttempt (st : ClientState) (o : ServerOutcome) :
    List ClientAction × Except SmtpError Unit :=
  let s := sendCommandM st "QUIT" (some [221, 250]) o
  (s.1, s.2.map fun _ => ())

/-- `quit()`: the QUIT exchange with every error swallowed by the empty
`catch`, then the unconditional `finally` teardown `socket?.end()`,
`socket?.destroy()` (no-ops without a socket).  Total by construction. -/
def quit (st : ClientState) (o : ServerOutcome) : List ClientAction :=
  (quitAttempt st o).1
    ++ (if st.socketPresent then [ClientAction.endSocket, ClientAction.destroySocket] else [])

/-! ### Response assembly (`handleData` / `processLine`) -/

/-- The accumulation fields `currentResponseCode` / `currentResponseLines`. -/
structure AssemblyState where
  currentResponseCode : Option Nat
  currentResponseLines : List String
deriving DecidableEq

/-- The regex `^(\d{3})([ -])(.*)$`: three digits, then a space (final line)
or hyphen (continuation), then a rest in which JavaScript's `.` matches no
line terminator — a line holding an interior `\r` (or U+2028/U+2029) fails
the match and is ignored. -/
def parseCodeSep (line : List Char) : Option (Nat × Char) :=
  match line with
  | d1 :: d2 :: d3 :: sep :: rest =>
    if d1.isDigit ∧ d2.isDigit ∧ d3.isDigit ∧ (sep = ' ' ∨ sep = '-')
        ∧ rest.all (fun c => !(c == '\n' || c == '\r' || c == '\u2028' || c == '\u2029')) then
      some ((d1.toNat - 48) * 100 + (d2.toNat - 48) * 10 + (d3.toNat - 48), sep)
    else none
  | _ => none

/-- `processLine`: non-matching lines are ignored; matching lines accumulate;
a space separator completes the response, whose `code` is the final line's
code (the accumulated `currentResponseCode` is reset but never read). -/
def processLine (st : AssemblyState) (line : String) :
    AssemblyState × Option SmtpResponse :=
  match parseCodeSep line.data with
  | none => (st, none)
  | some (code, sep) =>
    let newCode := match st.currentResponseCode with
      | none => some code
      | some c0 => some c0
    let newLines := st.currentResponseLines ++ [line]
    if sep = ' ' then (⟨none, []⟩, some ⟨code, newLines⟩)
    else (⟨newCode, newLines⟩, none)

/-- The `handleData` loop's line extraction: every complete line of the buffer
(terminator `\n` with an optional preceding `\r` stripped, as
`rawLine.replace(/\r?\n$/, "")` does) plus the leftover kept in the buffer. -/
def completeLines : List Char → List (List Char) × List Char
  | [] => ([], [])
  | [c] =>
    if c = '\n' then ([[]], []) else ([], [c])
  | c :: d :: rest =>
    if c = '\n' then
      let r := completeLines (d :: rest)
      ([] :: r.1, r.2)
    else if c = '\r' ∧ d = '\n' then
      let r := completeLines rest
      ([] :: r.1, r.2)
    else
      match completeLines (d :: rest) with
      | ([], leftover) => ([], c :: leftover)
      | (l :: ls, leftover) => ((c :: l) :: ls, leftover)

/-- Feed every complete line through `processLine`, collecting the assembled
responses in arrival order. -/
def assembleResponses (st : AssemblyState) : List (List Char) → AssemblyState × List SmtpResponse
  | [] => (st, [])
  | l :: rest =>
    let p := processLine st (String.mk l)
    let r := assembleResponses p.1 rest
    (r.1, (match p.2 with | some resp => [resp] | none => []) ++ r.2)

/-- The first response assembled from a raw greeting text. -/
def firstResponse (raw : String) : Option SmtpResponse :=
  (assembleResponses ⟨none, []⟩ (completeLines raw.data).1).2.head?

/-- What the transport does between `connect()` and the resolution of its
awaited greeting. -/
inductive TransportEvent where
  | data (raw : String)
  | socketError
deriving DecidableEq

/-- `connect()`: assigns `this.socket` (which stays assigned whatever happens
next), wires the handlers, and awaits the first assembled response expecting
`220`; no response before the timeout, a socket error, or an unexpected final
code fail the returned promise. -/
def connectM (ev : TransportEvent) : ClientState × Except SmtpError SmtpResponse :=
  let st : ClientState := ⟨true, false, []⟩
  match ev with
  | .socketError => (st, .error .transport)
  | .data raw =>
    match firstResponse raw with
    | none => (st, .error .timedOut)
    | some r =>
      if expectedOk (some [220]) r.code then (st, .ok r)
      else (st, .error (.unexpectedResponse r.code))

/-! ### SMTP operation lemmas -/

theorem sendCommandM_reply_ok (st : ClientState) (cmd : String) (es : Option (List Nat))
    (code : Nat) (ls : List String) (hs : st.socketPresent = true)
    (hp : st.pendingBusy = false) (hq : st.queuedResponses = [])
    (hok : expectedOk es code = true) :
    sendCommandM st cmd es (.reply ⟨code, ls⟩)
      = ([.write (cmd ++ "\r\n")], .ok (⟨code, ls⟩, st)) := by
  simp [sendCommandM, writeM, readResponseM, hs, hp, hq, hok]

theorem sendCommandM_reply_unexpected (st : ClientState) (cmd : String)
    (es : Option (List Nat)) (code : Nat) (ls : List String)
    (hs : st.socketPresent = true) (hp : st.pendingBusy = false)
    (hq : st.queuedResponses = []) (hbad : expectedOk es code = false) :
    sendCommandM st cmd es (.reply ⟨code, ls⟩)
      = ([.write (cmd ++ "\r\n")], .error (.unexpectedResponse code)) := by
  simp [sendCommandM, writeM, readResponseM, hs, hp, hq, hbad]

/-- C6: when the final response to RCPT TO carries a code outside
`{250, 251}`, `sendMail` fails with the protocol error carrying that numeric
code (its message spells the code out), the only transport writes performed
are the MAIL FROM and RCPT TO commands — in particular `DATA` is never
written — and the client performs no transport teardown of its own. -/
theorem sendMail_rcpt_failure (sender rcpt message : String) (c : Nat)
    (hc : ¬ c ∈ ([250, 251] : List Nat)) (l1 l2 : List String)
    (rest : List ServerOutcome) :
    (sendMail ⟨true, false, []⟩ sender rcpt message
        (.reply ⟨250, l1⟩ :: .reply ⟨c, l2⟩ :: rest)).2
      = .error (.unexpectedResponse c)
    ∧ (sendMail ⟨true, false, []⟩ sender rcpt message
        (.reply ⟨250, l1⟩ :: .reply ⟨c, l2⟩ :: rest)).1
      = [.write ("MAIL FROM:<" ++ sender ++ ">" ++ "\r\n"),
         .write ("RCPT TO:<" ++ rcpt ++ ">" ++ "\r\n")]
    ∧ ClientAction.write "DATA\r\n"
        ∉ (sendMail ⟨true, false, []⟩ sender rcpt message
            (.reply ⟨250, l1⟩ :: .reply ⟨c, l2⟩ :: rest)).1
    ∧ (∀ a ∈ (sendMail ⟨true, false, []⟩ sender rcpt message
          (.reply ⟨250, l1⟩ :: .reply ⟨c, l2⟩ :: rest)).1,
        a ≠ ClientAction.endSocket ∧ a ≠ ClientAction.destroySocket)
    ∧ SmtpError.message (.unexpectedResponse c)
      = "Unexpected SMTP response (" ++ toString c ++ ")." := by
  have hc1 : c ≠ 250 := by intro h; exact hc (by simp [h])
  have hc2 : c ≠ 251 := by intro h; exact hc (by simp [h])
  have hbad : expectedOk (some [250, 251]) c = false := by
    simp [expectedOk, hc1, hc2]
  have e1 : sendCommandM ⟨true, false, []⟩ ("MAIL FROM:<" ++ sender ++ ">")
      (some [250]) (.reply ⟨250, l1⟩)
      = ([.write ("MAIL FROM:<" ++ sender ++ ">" ++ "\r\n")],
         .ok (⟨250, l1⟩, ⟨true, false, []⟩)) :=
    sendCommandM_reply_ok _ _ _ 250 l1 rfl rfl rfl (by decide)
  have e2 : sendCommandM ⟨true, false, []⟩ ("RCPT TO:<" ++ rcpt ++ ">")
      (some [250, 251]) (.reply ⟨c, l2⟩)
      = ([.write ("RCPT TO:<" ++ rcpt ++ ">" ++ "\r\n")],
         .error (.unexpectedResponse c)) :=
    sendCommandM_reply_unexpected _ _ _ c l2 rfl rfl rfl hbad
  have hmain : sendMail ⟨true, false, []⟩ sender rcpt message
      (.reply ⟨250, l1⟩ :: .reply ⟨c, l2⟩ :: rest)
      = ([.write ("MAIL FROM:<" ++ sender ++ ">" ++ "\r\n"),
          .write ("RCPT TO:<" ++ rcpt ++ ">" ++ "\r\n")],
         .error (.unexpectedResponse c)) := by
    simp only [sendMail, scriptGet, List.getD_cons_zero, List.getD_cons_succ, e1, e2]
    rfl
  refine ⟨by rw [hmain], by rw [hmain], ?_, ?_, rfl⟩
  · rw [hmain]
    intro hmem
    simp only [List.mem_cons, List.mem_singleton, List.not_mem_nil] at hmem
    rcases hmem with h | h | h
    · have h2 : ("DATA\r\n" : String) = "MAIL FROM:<" ++ sender ++ ">" ++ "\r\n" :=
        ClientAction.write.inj h
      have h4 : some 'D' = some 'M' := congrArg (fun s => s.data.head?) h2
      exact absurd h4 (by decide)
    · have h2 : ("DATA\r\n" : String) = "RCPT TO:<" ++ rcpt ++ ">" ++ "\r\n" :=
        ClientAction.write.inj h
      have h4 : some 'D' = some 'R' := congrArg (fun s => s.data.head?) h2
      exact absurd h4 (by decide)
    · exact h
  · rw [hmain]
    intro a ha
    simp only [List.mem_cons, List.mem_singleton, List.not_mem_nil] at ha
    rcases ha with h | h | h
    · subst h
      refine ⟨?_, ?_⟩ <;> simp
    · subst h
      refine ⟨?_, ?_⟩ <;> simp
    · exact absurd h (by simp)

/-- Witness for C6 at the spec's own example: a 550 reply to RCPT TO. -/
theorem sendMail_rcpt_failure_witness :
    ¬ (550 : Nat) ∈ ([250, 251] : List Nat)
    ∧ (sendMail ⟨true, false, []⟩ "a@b" "c@d" "hi"
        [.reply ⟨250, ["250 OK"]⟩, .reply ⟨550, ["550 mailbox unavailable"]⟩]).2
      = .error (.unexpectedResponse 550) :=
  ⟨by decide,
   (sendMail_rcpt_failure "a@b" "c@d" "hi" 550 (by decide)
      ["250 OK"] ["550 mailbox unavailable"] []).1⟩

/-- C7: `quit()` never throws in any session state: it is a total function of
the state and the QUIT exchange's outcome; with a socket present it writes
`QUIT` and then unconditionally tears the transport down (`end` then
`destroy`) whatever the outcome was — wrong code, timeout, transport error, a
pending-response usage error — and with no socket (or after a prior failure)
the missing transport's error is swallowed and it does nothing. -/
theorem quit_never_throws (st : ClientState) (o : ServerOutcome) :
    (st.socketPresent = true →
      quit st o = [ClientAction.write "QUIT\r\n", ClientAction.endSocket,
        ClientAction.destroySocket])
    ∧ (st.socketPresent = false → quit st o = [])
    ∧ quit st o = (quitAttempt st o).1
        ++ (if st.socketPresent then [ClientAction.endSocket, ClientAction.destroySocket]
            else []) := by
  refine ⟨?_, ?_, rfl⟩
  · intro hs
    have hacts : (quitAttempt st o).1 = [ClientAction.write "QUIT\r\n"] := by
      simp only [quitAttempt, sendCommandM, writeM, hs, if_true]
      rcases h : readResponseM st (some [221, 250]) o with e | r <;> simp
    simp [quit, hacts, hs]
  · intro hs
    have hacts : (quitAttempt st o).1 = [] := by
      simp [quitAttempt, sendCommandM, writeM, hs]
    simp [quit, hacts, hs]

/-- Witness for C7 in an abnormal state: socket present, a response already
pending, and the QUIT wait ending in a transport error — quit still returns
normally with the full teardown. -/
theorem quit_never_throws_witness :
    quit ⟨true, true, []⟩ ServerOutcome.transportError
      = [ClientAction.write "QUIT\r\n", ClientAction.endSocket,
         ClientAction.destroySocket]
    ∧ quit ⟨false, false, []⟩ ServerOutcome.timeout = [] :=
  ⟨(quit_never_throws ⟨true, true, []⟩ ServerOutcome.transportError).1 rfl,
   (quit_never_throws ⟨false, false, []⟩ ServerOutcome.timeout).2.1 rfl⟩

/-- C8 counterexample: a `554` greeting makes `connect()` fail, but the
session is *not* left with no transport — `this.socket` stays assigned (the
teardown only happens later in `quit()`). -/
theorem connect_failure_counterexample :
    (connectM (.data "554 no\r\n")).2 = .error (.unexpectedResponse 554)
    ∧ ¬ (connectM (.data "554 no\r\n")).1.socketPresent = false := by
  refine ⟨rfl, by decide⟩

/-- C8 (amended): `connect()` succeeds exactly when the first greeting
assembled from the transport bytes — single-line or multi-line — has final
status code 220; any other final code fails it with a protocol error carrying
the code, no assembled greeting fails it with a timeout, and a transport
error fails it with a transport error; in every failure case the session
still retains the opened socket handle (teardown is deferred to `quit()`). -/
theorem connect_greeting (raw : String) (r : SmtpResponse)
    (h : firstResponse raw = some r) :
    ((connectM (.data raw)).2 = .ok r ↔ r.code = 220)
    ∧ (r.code ≠ 220 →
        (connectM (.data raw)).2 = .error (.unexpectedResponse r.code))
    ∧ (connectM (.data raw)).1.socketPresent = true
    ∧ (∀ raw2, firstResponse raw2 = none →
        (connectM (.data raw2)).2 = .error .timedOut
        ∧ (connectM (.data raw2)).1.socketPresent = true)
    ∧ (connectM .socketError).2 = .error .transport
    ∧ (connectM .socketError).1.socketPresent = true := by
  refine ⟨?_, ?_, ?_, ?_, rfl, rfl⟩
  · constructor
    · intro h2
      by_cases hcode : r.code = 220
      · exact hcode
      · exfalso
        have hbad : expectedOk (some [220]) r.code = false := by
          simp [expectedOk, hcode]
        simp [connectM, h, hbad] at h2
    · intro hcode
      have hgood : expectedOk (some [220]) r.code = true := by
        simp [expectedOk, hcode]
      simp [connectM, h, hgood]
  · intro hcode
    have hbad : expectedOk (some [220]) r.code = false := by
      simp [expectedOk, hcode]
    simp [connectM, h, hbad]
  · cases hcase : expectedOk (some [220]) r.code <;> simp [connectM, h, hcase]
  · intro raw2 h2
    exact ⟨by simp [connectM, h2], by simp [connectM, h2]⟩

/-- Witness for C8: a multi-line `220` greeting is accepted, with the final
line's code as the response code. -/
theorem connect_greeting_witness :
    firstResponse "220-hello\r\n220 ready\r\n"
      = some ⟨220, ["220-hello", "220 ready"]⟩
    ∧ (connectM (.data "220-hello\r\n220 ready\r\n")).2
      = .ok ⟨220, ["220-hello", "220 ready"]⟩ := by
  have h : firstResponse "220-hello\r\n220 ready\r\n"
      = some ⟨220, ["220-hello", "220 ready"]⟩ := by rfl
  exact ⟨h, ((connect_greeting "220-hello\r\n220 ready\r\n" ⟨220, ["220-hello", "220 ready"]⟩ h).1).2 rfl⟩

/-! ## MIME message encoder (send-to-kindle, `buildMimeMessage`) -/

/-- JavaScript `s.replace(/[class]+/g, replacement)`: every maximal run of
characters satisfying `p` becomes the fixed `replacement` once.  Written as a
structural right fold: a run character followed by another run character emits
nothing, the last character of a run emits the replacement. -/
def replaceRuns (p : Char → Bool) (replacement : List Char) : List Char → List Char
  | [] => []
  | c :: rest =>
    if p c then
      if (rest.head?.map p).getD false then replaceRuns p replacement rest
      else replacement ++ replaceRuns p replacement rest
    else c :: replaceRuns p replacement rest

/-- `sanitizeHeader`: `value.replace(/[\r\n]+/g, " ").trim()`. -/
def sanitizeHeader (value : String) : String :=
  jsTrim (String.mk (replaceRuns (fun c => c == '\r' || c == '\n') [' '] value.data))

/-- `isAscii`: every UTF-16 unit is at most 127 (equivalently every code
point, since all surrogate values exceed 127). -/
def isAscii (value : String) : Bool :=
  value.data.all (fun c => c.toNat ≤ 127)

def base64Alphabet : List Char :=
  "ABCDEFGHIJKLMNOPQRSTUVWXYZabcdefghijklmnopqrstuvwxyz0123456789+/".data

def b64char (n : Nat) : Char := base64Alphabet.getD n 'A'

/-- `Buffer.prototype.toString("base64")`: standard base64 with `=` padding. -/
def base64Encode : List Nat → List Char
  | [] => []
  | [b1] => [b64char (b1 / 4), b64char (b1 % 4 * 16), '=', '=']
  | [b1, b2] => [b64char (b1 / 4), b64char (b1 % 4 * 16 + b2 / 16), b64char (b2 % 16 * 4), '=']
  | b1 :: b2 :: b3 :: rest =>
    b64char (b1 / 4) :: b64char (b1 % 4 * 16 + b2 / 16)
      :: b64char (b2 % 16 * 4 + b3 / 64) :: b64char (b3 % 64) :: base64Encode rest

/-- `encodeHeader`: plain (sanitized) ASCII, or one UTF-8 base64 encoded
word. -/
def encodeHeader (value : String) : String :=
  if isAscii value then sanitizeHeader value
  else "=?UTF-8?B?" ++ String.mk (base64Encode (utf8Bytes value)) ++ "?="

/-- The characters `encodeURIComponent` leaves unescaped. -/
def unreservedURI (c : Char) : Bool :=
  c.isAlphanum || c == '-' || c == '_' || c == '.' || c == '!' || c == '~'
    || c == '*' || c == '\'' || c == '(' || c == ')'

def hexDigit (n : Nat) : Char := "0123456789ABCDEF".data.getD n '0'

/-- `%XX` with uppercase hex for one byte. -/
def percentEncodeByte (b : Nat) : List Char := ['%', hexDigit (b / 16), hexDigit (b % 16)]

/-- `encodeURIComponent`: unreserved characters pass through, everything else
becomes the percent-encoded UTF-8 bytes. -/
def encodeURIComponent (s : String) : String :=
  String.mk ((s.data.map (fun c =>
    if unreservedURI c then [c]
    else ((utf8EncodeCharNat c).map percentEncodeByte).flatten)).flatten)

/-- `encodeRFC5987ValueChars`: `encodeURIComponent` then percent-encode the
five remaining reserved marks `!'()*` (their code points are ASCII, so the
single `%XX` byte form matches `charCodeAt(0).toString(16).toUpperCase()`). -/
def encodeRFC5987ValueChars (value : String) : String :=
  String.mk (((encodeURIComponent value).data.map (fun c =>
    if c == '!' || c == '\'' || c == '(' || c == ')' || c == '*'
    then percentEncodeByte c.toNat
    else [c])).flatten)

/-- Drop trailing whitespace (`String.prototype.trimEnd`). -/
def trimEndChars (l : List Char) : List Char :=
  (l.reverse.dropWhile Char.isWhitespace).reverse

/-- `toAsciiFilename`: NFKD-normalise (the Unicode normalisation itself is
taken as the function parameter `nfkd`), strip every non-printable-ASCII run,
replace quote/backslash runs and whitespace runs by single spaces, trim, and
fall back to `Article.epub` when empty. -/
def toAsciiFilename (nfkd : String → String) (value : String) : String :=
  let normalized := replaceRuns (fun c => !(decide (0x20 ≤ c.toNat) && decide (c.toNat ≤ 0x7E))) []
    (nfkd value).data
  let step1 := replaceRuns (fun c => c == '"' || c == '\\') [' '] normalized
  let step2 := replaceRuns (fun c => c.isWhitespace) [' '] step1
  let cleaned := String.mk (trimChars step2)
  if cleaned = "" then "Article.epub" else cleaned

/-- `encodeFilenameHeader`: the sanitized name in ASCII-fallback and
RFC-5987 forms. -/
def encodeFilenameHeader (nfkd : String → String) (value : String) : String × String :=
  let sanitized := sanitizeHeader value
  (toAsciiFilename nfkd sanitized, encodeRFC5987ValueChars sanitized)

/-- The `chunkBase64` loop before `trimEnd`: 76-character slices, each
followed by CRLF. -/
def chunkSlices : List Char → List Char
  | [] => []
  | c :: rest =>
    (c :: rest).take 76 ++ '\r' :: '\n' :: chunkSlices ((c :: rest).drop 76)
  termination_by l => l.length
  decreasing_by
    simp only [List.length_drop, List.length_cons]
    omega

/-- `chunkBase64`: wrap at 76 characters per line, then `trimEnd()`. -/
def chunkBase64 (value : String) : String :=
  String.mk (trimEndChars (chunkSlices value.data))

structure MimeInput where
  title : String
  filename : String
  epubBuffer : List Nat
  senderEmail : String
  kindleEmail : String

/-- The string the `name*=UTF-8''…` parameter convention puts between the
charset and the encoded value: two apostrophes. -/
def twoQuotes : String := String.mk ['\'', '\'']

/-- The `lines` array of `buildMimeMessage`.  `crypto.randomUUID()` is the
explicit `uuid` parameter (`boundary = "raycast-" + uuid`), the wall clock
`new Date().toUTCString()` is the explicit `now` parameter, and NFKD
normalisation is the function parameter `nfkd`. -/
def mimeLines (nfkd : String → String) (uuid now : String) (input : MimeInput) :
    List String :=
  let boundary := "raycast-" ++ uuid
  let subject := encodeHeader (if input.title = "" then "Reading" else input.title)
  let textBody := "Here is your article in EPUB format."
  let attachmentBase64 := chunkBase64 (String.mk (base64Encode input.epubBuffer))
  let fn := encodeFilenameHeader nfkd
    (if input.filename = "" then "Article.epub" else input.filename)
  ["Date: " ++ now,
   "From: " ++ sanitizeHeader input.senderEmail,
   "To: " ++ sanitizeHeader input.kindleEmail,
   "Subject: " ++ subject,
   "MIME-Version: 1.0",
   "Content-Type: multipart/mixed; boundary=\"" ++ boundary ++ "\"",
   "",
   "--" ++ boundary,
   "Content-Type: text/plain; charset=\"utf-8\"",
   "Content-Transfer-Encoding: 7bit",
   "",
   textBody,
   "",
   "--" ++ boundary,
   "Content-Type: application/epub+zip; name=\"" ++ fn.1 ++ "\"; name*=UTF-8"
     ++ twoQuotes ++ fn.2,
   "Content-Transfer-Encoding: base64",
   "Content-Disposition: attachment; filename=\"" ++ fn.1 ++ "\"; filename*=UTF-8"
     ++ twoQuotes ++ fn.2,
   "",
   attachmentBase64,
   "",
   "--" ++ boundary ++ "--",
   ""]

/-- `buildMimeMessage`: the lines joined with CRLF. -/
def buildMimeMessage (nfkd : String → String) (uuid now : String) (input : MimeInput) :
    String :=
  String.mk (joinCRLF ((mimeLines nfkd uuid now input).map String.data))

/-- C9 counterexample: two invocations of the message encoder with identical
declared inputs and even the same random boundary differ in the `Date:`
header (a wall-clock value), which is not among the declared non-deterministic
boundary/identifier fields. -/
theorem mime_determinism_counterexample :
    (mimeLines (fun s => s) "u" "Mon, 01 Jan 2024 00:00:00 GMT"
        ⟨"T", "f.epub", [], "a@b", "c@d"⟩).getD 0 ""
      = "Date: " ++ "Mon, 01 Jan 2024 00:00:00 GMT"
    ∧ (mimeLines (fun s => s) "u" "Tue, 02 Jan 2024 00:00:00 GMT"
        ⟨"T", "f.epub", [], "a@b", "c@d"⟩).getD 0 ""
      = "Date: " ++ "Tue, 02 Jan 2024 00:00:00 GMT"
    ∧ (mimeLines (fun s => s) "u" "Mon, 01 Jan 2024 00:00:00 GMT"
        ⟨"T", "f.epub", [], "a@b", "c@d"⟩).getD 0 ""
      ≠ (mimeLines (fun s => s) "u" "Tue, 02 Jan 2024 00:00:00 GMT"
        ⟨"T", "f.epub", [], "a@b", "c@d"⟩).getD 0 "" := by
  refine ⟨rfl, rfl, by decide⟩

/-- C9 (amended): two invocations of the message encoder with identical
inputs (same NFKD collaborator) produce line-for-line identical output —
same headers and values, same part ordering, byte-identical base64 payload —
except at the declared non-deterministic positions: the wall-clock `Date:`
header (line 0) and the four lines carrying the random boundary (lines 5, 7,
13 and 20). -/
theorem mime_structural_determinism (nfkd : String → String) (input : MimeInput)
    (u1 n1 u2 n2 : String) :
    (mimeLines nfkd u1 n1 input).length = 22
    ∧ (mimeLines nfkd u2 n2 input).length = 22
    ∧ (∀ i : Nat, ¬ i ∈ ([0, 5, 7, 13, 20] : List Nat) →
        (mimeLines nfkd u1 n1 input).getD i "" = (mimeLines nfkd u2 n2 input).getD i "")
    ∧ (mimeLines nfkd u1 n1 input).getD 18 "" = (mimeLines nfkd u2 n2 input).getD 18 "" := by
  have hmain : ∀ i : Nat, ¬ i ∈ ([0, 5, 7, 13, 20] : List Nat) →
      (mimeLines nfkd u1 n1 input).getD i "" = (mimeLines nfkd u2 n2 input).getD i "" := by
    intro i hi
    by_cases h22 : i < 22
    · interval_cases i
      · exact absurd (by decide) hi
      · rfl
      · rfl
      · rfl
      · rfl
      · exact absurd (by decide) hi
      · rfl
      · exact absurd (by decide) hi
      · rfl
      · rfl
      · rfl
      · rfl
      · rfl
      · exact absurd (by decide) hi
      · rfl
      · rfl
      · rfl
      · rfl
      · rfl
      · rfl
      · exact absurd (by decide) hi
      · rfl
    · have hlen1 : (mimeLines nfkd u1 n1 input).length ≤ i := by
        rw [show (mimeLines nfkd u1 n1 input).length = 22 from rfl]
        omega
      have hlen2 : (mimeLines nfkd u2 n2 input).length ≤ i := by
        rw [show (mimeLines nfkd u2 n2 input).length = 22 from rfl]
        omega
      rw [List.getD_eq_getElem?_getD, List.getD_eq_getElem?_getD,
        List.getElem?_eq_none hlen1, List.getElem?_eq_none hlen2]
  exact ⟨rfl, rfl, hmain, hmain 18 (by decide)⟩

/-- Witness for C9: the `From:` header (line 1) agrees across two invocations
with different boundary and clock values. -/
theorem mime_structural_determinism_witness :
    (mimeLines (fun s => s) "u1" "Mon" ⟨"T", "f.epub", [], "a@b", "c@d"⟩).getD 1 ""
      = (mimeLines (fun s => s) "u2" "Tue" ⟨"T", "f.epub", [], "a@b", "c@d"⟩).getD 1 "" :=
  (mime_structural_determinism (fun s => s) ⟨"T", "f.epub", [], "a@b", "c@d"⟩
    "u1" "Mon" "u2" "Tue").2.2.1 1 (by decide)

/-! ### Line-splitting lemmas -/

theorem consHead_ne_nil (c : Char) (ls : List (List Char)) : consHead c ls ≠ [] := by
  cases ls <;> simp [consHead]

theorem splitCRLF_ne_nil : ∀ l : List Char, splitCRLF l ≠ []
  | [] => by simp [splitCRLF]
  | [c] => by
    simp only [splitCRLF]
    split_ifs <;> simp
  | c :: d :: rest => by
    simp only [splitCRLF]
    split_ifs with h1 h2
    · simp
    · simp
    · exact consHead_ne_nil c _

theorem consHead_append (c : Char) (A B : List (List Char)) (hA : A ≠ []) :
    consHead c (A ++ B) = consHead c A ++ B := by
  cases A with
  | nil => exact absurd rfl hA
  | cons a as => simp [consHead]

theorem splitCRLF_cons_nl (x : Char) (xs : List Char) :
    splitCRLF ('\n' :: x :: xs) = [] :: splitCRLF (x :: xs) := by
  simp [splitCRLF]

theorem splitCRLF_cons_crlf (xs : List Char) :
    splitCRLF ('\r' :: '\n' :: xs) = [] :: splitCRLF xs := by
  simp [splitCRLF]

theorem splitCRLF_cons_other (c d : Char) (xs : List Char) (hc : c ≠ '\n')
    (hcd : ¬(c = '\r' ∧ d = '\n')) :
    splitCRLF (c :: d :: xs) = consHead c (splitCRLF (d :: xs)) := by
  simp [splitCRLF, hc, hcd]

theorem splitCRLF_append_crlf : ∀ (l t : List Char),
    splitCRLF (l ++ '\r' :: '\n' :: t) = splitCRLF l ++ splitCRLF t
  | [], t => by simp [splitCRLF]
  | [c], t => by
    by_cases hc : c = '\n'
    · subst hc
      simp [splitCRLF]
    · by_cases hr : c = '\r'
      · subst hr
        simp [splitCRLF, consHead]
      · simp [splitCRLF, hc, hr, consHead]
  | c :: d :: rest, t => by
    have ih := splitCRLF_append_crlf (d :: rest) t
    have ih2 := splitCRLF_append_crlf rest t
    simp only [List.cons_append] at ih ⊢
    by_cases hc : c = '\n'
    · subst hc
      rw [splitCRLF_cons_nl, splitCRLF_cons_nl, ih]
      simp
    · by_cases hcd : c = '\r' ∧ d = '\n'
      · obtain ⟨hc1, hd1⟩ := hcd
        subst hc1
        subst hd1
        rw [splitCRLF_cons_crlf, splitCRLF_cons_crlf, ih2]
        simp
      · rw [splitCRLF_cons_other c d _ hc hcd, splitCRLF_cons_other c d _ hc hcd, ih,
          consHead_append c _ _ (splitCRLF_ne_nil (d :: rest))]

theorem splitCRLF_single : ∀ l : List Char, (∀ c ∈ l, c ≠ '\r' ∧ c ≠ '\n') →
    splitCRLF l = [l]
  | [], _ => rfl
  | [c], h => by
    have := h c (by simp)
    simp [splitCRLF, this.2]
  | c :: d :: rest, h => by
    have hc := h c (by simp)
    have ih := splitCRLF_single (d :: rest) (fun x hx => h x (by simp [hx]))
    simp [splitCRLF, hc.1, hc.2, ih, consHead]

theorem splitCRLF_join : ∀ ls : List (List Char), ls ≠ [] →
    splitCRLF (joinCRLF ls) = (ls.map splitCRLF).flatten
  | [], h => absurd rfl h
  | [l], _ => by simp [joinCRLF]
  | l :: l2 :: rest, _ => by
    have ih := splitCRLF_join (l2 :: rest) (by simp)
    simp only [joinCRLF, splitCRLF_append_crlf, ih, List.map_cons, List.flatten_cons]

theorem splitCRLF_chars : ∀ (l : List Char) (line : List Char),
    line ∈ splitCRLF l → ∀ c ∈ line, c ∈ l
  | [], line, hline, c, hc => by
    simp [splitCRLF] at hline
    subst hline
    simp at hc
  | [d], line, hline, c, hc => by
    simp only [splitCRLF] at hline
    split_ifs at hline with h
    · rcases (by simpa using hline : line = [] ∨ line = []) with h2 | h2 <;>
        (subst h2; simp at hc)
    · have h2 : line = [d] := by simpa using hline
      subst h2
      simpa using hc
  | d :: e :: rest, line, hline, c, hc => by
    simp only [splitCRLF] at hline
    split_ifs at hline with h1 h2
    · rcases (by simpa using hline : line = [] ∨ line ∈ splitCRLF (e :: rest)) with h3 | h3
      · subst h3; simp at hc
      · exact List.mem_cons_of_mem _ (splitCRLF_chars (e :: rest) line h3 c hc)
    · rcases (by simpa using hline : line = [] ∨ line ∈ splitCRLF rest) with h3 | h3
      · subst h3; simp at hc
      · exact List.mem_cons_of_mem _ (List.mem_cons_of_mem _ (splitCRLF_chars rest line h3 c hc))
    · rcases h4 : splitCRLF (e :: rest) with _ | ⟨first, others⟩
      · exact absurd h4 (splitCRLF_ne_nil _)
      · rw [h4] at hline
        simp only [consHead] at hline
        rcases (by simpa using hline : line = d :: first ∨ line ∈ others) with h3 | h3
        · subst h3
          rcases (by simpa using hc : c = d ∨ c ∈ first) with h5 | h5
          · simp [h5]
          · have : c ∈ e :: rest :=
              splitCRLF_chars (e :: rest) first (by rw [h4]; simp) c h5
            simp [List.mem_cons_of_mem, this]
        · have : c ∈ e :: rest :=
            splitCRLF_chars (e :: rest) line (by rw [h4]; simp [h3]) c hc
          simp [this]

/-! ### Character-class lemmas for the encoder components -/

theorem replaceRuns_chars (p : Char → Bool) (r : List Char) :
    ∀ (l : List Char) (c : Char), c ∈ replaceRuns p r l → c ∈ r ∨ (c ∈ l ∧ p c = false)
  | [], c => by simp [replaceRuns]
  | ch :: rest, c => by
    intro h
    simp only [replaceRuns] at h
    split_ifs at h with h1 h2
    · rcases replaceRuns_chars p r rest c h with h3 | ⟨h3, h4⟩
      · exact Or.inl h3
      · exact Or.inr ⟨List.mem_cons_of_mem _ h3, h4⟩
    · rcases List.mem_append.mp h with h3 | h3
      · exact Or.inl h3
      · rcases replaceRuns_chars p r rest c h3 with h4 | ⟨h4, h5⟩
        · exact Or.inl h4
        · exact Or.inr ⟨List.mem_cons_of_mem _ h4, h5⟩
    · rcases List.mem_cons.mp h with h3 | h3
      · subst h3
        exact Or.inr ⟨List.mem_cons_self _ _, by simpa using h1⟩
      · rcases replaceRuns_chars p r rest c h3 with h4 | ⟨h4, h5⟩
        · exact Or.inl h4
        · exact Or.inr ⟨List.mem_cons_of_mem _ h4, h5⟩

theorem trimChars_chars (l : List Char) (c : Char) (h : c ∈ trimChars l) : c ∈ l := by
  unfold trimChars at h
  rw [List.mem_reverse] at h
  have h2 := (List.dropWhile_sublist _).subset h
  rw [List.mem_reverse] at h2
  exact (List.dropWhile_sublist _).subset h2

theorem trimEndChars_chars (l : List Char) (c : Char) (h : c ∈ trimEndChars l) : c ∈ l := by
  unfold trimEndChars at h
  rw [List.mem_reverse] at h
  have h2 := (List.dropWhile_sublist _).subset h
  rw [List.mem_reverse] at h2
  exact h2

theorem sanitizeHeader_crlf_free (v : String) :
    ∀ c ∈ (sanitizeHeader v).data, c ≠ '\r' ∧ c ≠ '\n' := by
  intro c hc
  have h2 := trimChars_chars _ _ hc
  rcases replaceRuns_chars _ _ _ _ h2 with h3 | ⟨_, h4⟩
  · have h5 : c = ' ' := by simpa using h3
    subst h5
    exact ⟨by decide, by decide⟩
  · constructor <;> (intro he; subst he; simp at h4)

theorem getD_mem_or (l : List Char) (n : Nat) (d : Char) :
    l.getD n d ∈ l ∨ l.getD n d = d := by
  rcases h : l[n]? with _ | c
  · right
    simp [List.getD_eq_getElem?_getD, h]
  · left
    have h2 := List.getElem?_mem h
    simpa [List.getD_eq_getElem?_getD, h] using h2

theorem b64char_ne (n : Nat) :
    b64char n ≠ '.' ∧ b64char n ≠ '\r' ∧ b64char n ≠ '\n' := by
  have hall : ∀ x ∈ base64Alphabet, x ≠ '.' ∧ x ≠ '\r' ∧ x ≠ '\n' := by decide
  rcases getD_mem_or base64Alphabet n 'A' with h | h
  · exact hall _ h
  · unfold b64char
    rw [h]
    exact ⟨by decide, by decide, by decide⟩

theorem base64Encode_chars : ∀ (bs : List Nat) (c : Char), c ∈ base64Encode bs →
    c = '=' ∨ ∃ n, c = b64char n
  | [], c => by simp [base64Encode]
  | [b1], c => by
    intro h
    simp only [base64Encode, List.mem_cons, List.not_mem_nil, or_false] at h
    rcases h with h | h | h | h
    · exact Or.inr ⟨_, h⟩
    · exact Or.inr ⟨_, h⟩
    · exact Or.inl h
    · exact Or.inl h
  | [b1, b2], c => by
    intro h
    simp only [base64Encode, List.mem_cons, List.not_mem_nil, or_false] at h
    rcases h with h | h | h | h
    · exact Or.inr ⟨_, h⟩
    · exact Or.inr ⟨_, h⟩
    · exact Or.inr ⟨_, h⟩
    · exact Or.inl h
  | b1 :: b2 :: b3 :: rest, c => by
    intro h
    simp only [base64Encode, List.mem_cons] at h
    rcases h with h | h | h | h | h
    · exact Or.inr ⟨_, h⟩
    · exact Or.inr ⟨_, h⟩
    · exact Or.inr ⟨_, h⟩
    · exact Or.inr ⟨_, h⟩
    · exact base64Encode_chars rest c h

theorem encodeHeader_crlf_free (v : String) :
    ∀ c ∈ (encodeHeader v).data, c ≠ '\r' ∧ c ≠ '\n' := by
  intro c hc
  unfold encodeHeader at hc
  split_ifs at hc with h
  · exact sanitizeHeader_crlf_free v c hc
  · simp only [String.data_append] at hc
    rcases List.mem_append.mp hc with h1 | h1
    · rcases List.mem_append.mp h1 with h2 | h2
      · exact (by decide : ∀ x ∈ ("=?UTF-8?B?" : String).data, x ≠ '\r' ∧ x ≠ '\n') c h2
      · rcases base64Encode_chars _ _ h2 with h3 | ⟨n, h3⟩
        · subst h3
          exact ⟨by decide, by decide⟩
        · subst h3
          exact ⟨(b64char_ne n).2.1, (b64char_ne n).2.2⟩
    · exact (by decide : ∀ x ∈ ("?=" : String).data, x ≠ '\r' ∧ x ≠ '\n') c h1

theorem hexDigit_ne (n : Nat) : hexDigit n ≠ '\r' ∧ hexDigit n ≠ '\n' := by
  have hall : ∀ x ∈ ("0123456789ABCDEF" : String).data, x ≠ '\r' ∧ x ≠ '\n' := by decide
  rcases getD_mem_or ("0123456789ABCDEF" : String).data n '0' with h | h
  · exact hall _ h
  · unfold hexDigit
    rw [h]
    exact ⟨by decide, by decide⟩

theorem percentEncodeByte_crlf_free (b : Nat) :
    ∀ c ∈ percentEncodeByte b, c ≠ '\r' ∧ c ≠ '\n' := by
  intro c hc
  simp only [percentEncodeByte, List.mem_cons, List.not_mem_nil, or_false] at hc
  rcases hc with h | h | h
  · subst h
    exact ⟨by decide, by decide⟩
  · subst h
    exact hexDigit_ne _
  · subst h
    exact hexDigit_ne _

theorem encodeURIComponent_crlf_free (s : String) :
    ∀ c ∈ (encodeURIComponent s).data, c ≠ '\r' ∧ c ≠ '\n' := by
  intro c hc
  have hc2 : c ∈ (s.data.map fun c0 =>
      if unreservedURI c0 then [c0]
      else ((utf8EncodeCharNat c0).map percentEncodeByte).flatten).flatten := hc
  rw [List.mem_flatten] at hc2
  obtain ⟨sub, hsub, hcsub⟩ := hc2
  rw [List.mem_map] at hsub
  obtain ⟨c0, _, hc0⟩ := hsub
  subst hc0
  split_ifs at hcsub with h
  · have hc1 : c = c0 := by simpa using hcsub
    subst hc1
    constructor <;> (intro he; rw [he] at h; exact absurd h (by decide))
  · rw [List.mem_flatten] at hcsub
    obtain ⟨sub2, hsub2, hcs2⟩ := hcsub
    rw [List.mem_map] at hsub2
    obtain ⟨b, _, hb⟩ := hsub2
    subst hb
    exact percentEncodeByte_crlf_free b c hcs2

theorem encodeRFC5987_crlf_free (v : String) :
    ∀ c ∈ (encodeRFC5987ValueChars v).data, c ≠ '\r' ∧ c ≠ '\n' := by
  intro c hc
  have hc2 : c ∈ ((encodeURIComponent v).data.map (fun c0 =>
      if c0 == '!' || c0 == '\'' || c0 == '(' || c0 == ')' || c0 == '*'
      then percentEncodeByte c0.toNat
      else [c0])).flatten := hc
  rw [List.mem_flatten] at hc2
  obtain ⟨sub, hsub, hcsub⟩ := hc2
  rw [List.mem_map] at hsub
  obtain ⟨c0, hc0mem, hc0⟩ := hsub
  subst hc0
  split_ifs at hcsub with h
  · exact percentEncodeByte_crlf_free _ c hcsub
  · have hc1 : c = c0 := by simpa using hcsub
    subst hc1
    exact encodeURIComponent_crlf_free v c hc0mem

theorem toAsciiFilename_printable (nfkd : String → String) (v : String) :
    ∀ c ∈ (toAsciiFilename nfkd v).data, 0x20 ≤ c.toNat ∧ c.toNat ≤ 0x7E := by
  intro c hc
  simp only [toAsciiFilename] at hc
  split_ifs at hc with h
  · exact (by decide : ∀ x ∈ ("Article.epub" : String).data,
      0x20 ≤ x.toNat ∧ x.toNat ≤ 0x7E) c hc
  · have h1 := trimChars_chars _ _ hc
    rcases replaceRuns_chars _ _ _ _ h1 with h2 | ⟨h2, _⟩
    · have h5 : c = ' ' := by simpa using h2
      subst h5
      exact ⟨by decide, by decide⟩
    · rcases replaceRuns_chars _ _ _ _ h2 with h3 | ⟨h3, _⟩
      · have h5 : c = ' ' := by simpa using h3
        subst h5
        exact ⟨by decide, by decide⟩
      · rcases replaceRuns_chars _ _ _ _ h3 with h4 | ⟨_, h6⟩
        · simp at h4
        · simpa using h6

theorem toAsciiFilename_crlf_free (nfkd : String → String) (v : String) :
    ∀ c ∈ (toAsciiFilename nfkd v).data, c ≠ '\r' ∧ c ≠ '\n' := by
  intro c hc
  have h := toAsciiFilename_printable nfkd v c hc
  constructor <;> (intro he; subst he; revert h; decide)

theorem chunkSlices_chars : ∀ (l : List Char) (c : Char), c ∈ chunkSlices l →
    c ∈ l ∨ c = '\r' ∨ c = '\n'
  | [], c => by simp [chunkSlices]
  | ch :: rest, c => by
    intro h
    rw [chunkSlices] at h
    rcases List.mem_append.mp h with h1 | h1
    · exact Or.inl (List.mem_of_mem_take h1)
    · rcases List.mem_cons.mp h1 with h2 | h2
      · exact Or.inr (Or.inl h2)
      · rcases List.mem_cons.mp h2 with h3 | h3
        · exact Or.inr (Or.inr h3)
        · rcases chunkSlices_chars ((ch :: rest).drop 76) c h3 with h4 | h4
          · exact Or.inl (List.mem_of_mem_drop h4)
          · exact Or.inr h4
  termination_by l _ => l.length
  decreasing_by
    simp only [List.length_drop, List.length_cons]
    omega

theorem chunkBase64_chars (v : String) (c : Char) (h : c ∈ (chunkBase64 v).data) :
    c ∈ v.data ∨ c = '\r' ∨ c = '\n' :=
  chunkSlices_chars _ _ (trimEndChars_chars _ _ h)

/-! ### Dot-stuffing end-to-end -/

theorem flatten_map_singleton (ls : List (List Char)) :
    (ls.map fun l => [l]).flatten = ls := by
  induction ls with
  | nil => rfl
  | cons l rest ih => simp [ih]

theorem no_dot_line_of_free (l : List Char) (hfree : ∀ c ∈ l, c ≠ '\r' ∧ c ≠ '\n')
    (hhead : l.head? ≠ some '.') :
    ∀ line ∈ splitCRLF l, line.head? ≠ some '.' := by
  rw [splitCRLF_single l hfree]
  intro line hline
  have h : line = l := by simpa using hline
  subst h
  exact hhead

theorem no_dot_line_of_no_dot (l : List Char) (hdot : '.' ∉ l) :
    ∀ line ∈ splitCRLF l, line.head? ≠ some '.' := by
  intro line hline he
  exact hdot (splitCRLF_chars l line hline '.'
    (List.mem_of_mem_head? (by simp [he])))

theorem crlf_free_append (a b : String)
    (ha : ∀ c ∈ a.data, c ≠ '\r' ∧ c ≠ '\n')
    (hb : ∀ c ∈ b.data, c ≠ '\r' ∧ c ≠ '\n') :
    ∀ c ∈ (a ++ b).data, c ≠ '\r' ∧ c ≠ '\n' := by
  intro c hc
  rcases List.mem_append.mp hc with h | h
  · exact ha c h
  · exact hb c h

theorem ne_dot_of_head_eq {l : List Char} {c : Char} (h : l.head? = some c)
    (hc : c ≠ '.') : l.head? ≠ some '.' := by
  rw [h]
  simp [hc]

theorem no_dot_line_mem {l line : List Char} (hline : line ∈ splitCRLF l)
    (hfree : ∀ c ∈ l, c ≠ '\r' ∧ c ≠ '\n') (hhead : l.head? ≠ some '.') :
    line.head? ≠ some '.' :=
  no_dot_line_of_free l hfree hhead line hline

theorem no_dot_mem {l line : List Char} (hline : line ∈ splitCRLF l)
    (hdot : '.' ∉ l) : line.head? ≠ some '.' :=
  no_dot_line_of_no_dot l hdot line hline

/-- C5: dot-stuffing prepends exactly one period to every line that is
exactly `.` or starts with `.`, leaves other lines untouched, and re-joins
with CRLF; the stuffing happens at send time — `sendMail` streams
`dotStuff(message)` in the DATA phase while the encoder's stored
`buildMimeMessage` output is a faithful un-stuffed document none of whose
lines begins with a period. -/
theorem dot_stuffing_at_send_time :
    (∀ l : List Char, l.head? = some '.' → stuffLine l = '.' :: l)
    ∧ (∀ l : List Char, l.head? ≠ some '.' → stuffLine l = l)
    ∧ stuffLine ['.'] = ['.', '.']
    ∧ (∀ ls : List (List Char), ls ≠ [] →
        (∀ l ∈ ls, ∀ c ∈ l, c ≠ '\r' ∧ c ≠ '\n') →
        dotStuff (String.mk (joinCRLF ls)) = String.mk (joinCRLF (ls.map stuffLine)))
    ∧ (∀ (sender rcpt message : String) (l1 l2 l3 l4 : List String),
        sendMail ⟨true, false, []⟩ sender rcpt message
          [.reply ⟨250, l1⟩, .reply ⟨250, l2⟩, .reply ⟨354, l3⟩, .reply ⟨250, l4⟩]
        = ([.write ("MAIL FROM:<" ++ sender ++ ">" ++ "\r\n"),
            .write ("RCPT TO:<" ++ rcpt ++ ">" ++ "\r\n"),
            .write ("DATA" ++ "\r\n"),
            .write (dotStuff message ++ "\r\n"),
            .write ("." ++ "\r\n")], .ok ⟨true, false, []⟩))
    ∧ (∀ (nfkd : String → String) (uuid now : String) (input : MimeInput),
        (∀ c ∈ uuid.data, c ≠ '\r' ∧ c ≠ '\n') →
        (∀ c ∈ now.data, c ≠ '\r' ∧ c ≠ '\n') →
        ∀ line ∈ splitCRLF (buildMimeMessage nfkd uuid now input).data,
          line.head? ≠ some '.') := by
  refine ⟨?_, ?_, by decide, ?_, ?_, ?_⟩
  · intro l h
    simp [stuffLine, h]
  · intro l h
    simp [stuffLine, h]
  · intro ls hne hfree
    show String.mk (joinCRLF ((splitCRLF (joinCRLF ls)).map stuffLine))
      = String.mk (joinCRLF (ls.map stuffLine))
    rw [splitCRLF_join ls hne]
    have hsing : ls.map splitCRLF = ls.map (fun l => [l]) :=
      List.map_congr_left (fun l hl => splitCRLF_single l (hfree l hl))
    rw [hsing, flatten_map_singleton]
  · intro sender rcpt message l1 l2 l3 l4
    have e1 := sendCommandM_reply_ok ⟨true, false, []⟩ ("MAIL FROM:<" ++ sender ++ ">")
      (some [250]) 250 l1 rfl rfl rfl (by decide)
    have e2 := sendCommandM_reply_ok ⟨true, false, []⟩ ("RCPT TO:<" ++ rcpt ++ ">")
      (some [250, 251]) 250 l2 rfl rfl rfl (by decide)
    have e3 := sendCommandM_reply_ok ⟨true, false, []⟩ "DATA"
      (some [354]) 354 l3 rfl rfl rfl (by decide)
    have e4 := sendCommandM_reply_ok ⟨true, false, []⟩ "."
      (some [250]) 250 l4 rfl rfl rfl (by decide)
    simp only [sendMail, scriptGet, List.getD_cons_zero, List.getD_cons_succ,
      e1, e2, e3, e4]
    simp [writeM]
  · intro nfkd uuid now input hu hn line hline
    have hboundary : ∀ c ∈ ("raycast-" ++ uuid).data, c ≠ '\r' ∧ c ≠ '\n' :=
      crlf_free_append _ _ (by decide) hu
    have hfn1 : ∀ (v : String), ∀ c ∈ ((encodeFilenameHeader nfkd v).1).data,
        c ≠ '\r' ∧ c ≠ '\n' :=
      fun v c hc => toAsciiFilename_crlf_free nfkd (sanitizeHeader v) c hc
    have hfn2 : ∀ (v : String), ∀ c ∈ ((encodeFilenameHeader nfkd v).2).data,
        c ≠ '\r' ∧ c ≠ '\n' :=
      fun v c hc => encodeRFC5987_crlf_free (sanitizeHeader v) c hc
    have hdata : (buildMimeMessage nfkd uuid now input).data
        = joinCRLF ((mimeLines nfkd uuid now input).map String.data) := rfl
    rw [hdata, splitCRLF_join _ (by simp [mimeLines])] at hline
    rw [List.mem_flatten] at hline
    obtain ⟨sub, hsub, hlinesub⟩ := hline
    rw [List.map_map, List.mem_map] at hsub
    obtain ⟨elem, helem, hsubeq⟩ := hsub
    subst hsubeq
    simp only [mimeLines, List.mem_cons, List.not_mem_nil, or_false] at helem
    rcases helem with h | h | h | h | h | h | h | h | h | h | h
      | h | h | h | h | h | h | h | h | h | h | h
    · subst h
      exact no_dot_line_mem hlinesub (crlf_free_append _ _ (by decide) hn)
        (ne_dot_of_head_eq rfl (by decide))
    · subst h
      exact no_dot_line_mem hlinesub
        (crlf_free_append _ _ (by decide) (sanitizeHeader_crlf_free _))
        (ne_dot_of_head_eq rfl (by decide))
    · subst h
      exact no_dot_line_mem hlinesub
        (crlf_free_append _ _ (by decide) (sanitizeHeader_crlf_free _))
        (ne_dot_of_head_eq rfl (by decide))
    · subst h
      exact no_dot_line_mem hlinesub
        (crlf_free_append _ _ (by decide) (encodeHeader_crlf_free _))
        (ne_dot_of_head_eq rfl (by decide))
    · subst h
      exact no_dot_line_mem hlinesub (by decide) (by decide)
    · subst h
      exact no_dot_line_mem hlinesub
        (crlf_free_append _ _ (crlf_free_append _ _ (by decide) hboundary) (by decide))
        (ne_dot_of_head_eq rfl (by decide))
    · subst h
      exact no_dot_line_mem hlinesub (by decide) (by decide)
    · subst h
      exact no_dot_line_mem hlinesub (crlf_free_append _ _ (by decide) hboundary)
        (ne_dot_of_head_eq rfl (by decide))
    · subst h
      exact no_dot_line_mem hlinesub (by decide) (by decide)
    · subst h
      exact no_dot_line_mem hlinesub (by decide) (by decide)
    · subst h
      exact no_dot_line_mem hlinesub (by decide) (by decide)
    · subst h
      exact no_dot_line_mem hlinesub (by decide) (by decide)
    · subst h
      exact no_dot_line_mem hlinesub (by decide) (by decide)
    · subst h
      exact no_dot_line_mem hlinesub (crlf_free_append _ _ (by decide) hboundary)
        (ne_dot_of_head_eq rfl (by decide))
    · subst h
      exact no_dot_line_mem hlinesub
        (crlf_free_append _ _
          (crlf_free_append _ _
            (crlf_free_append _ _ (crlf_free_append _ _ (by decide) (hfn1 _)) (by decide))
            (by decide))
          (hfn2 _))
        (ne_dot_of_head_eq rfl (by decide))
    · subst h
      exact no_dot_line_mem hlinesub (by decide) (by decide)
    · subst h
      exact no_dot_line_mem hlinesub
        (crlf_free_append _ _
          (crlf_free_append _ _
            (crlf_free_append _ _ (crlf_free_append _ _ (by decide) (hfn1 _)) (by decide))
            (by decide))
          (hfn2 _))
        (ne_dot_of_head_eq rfl (by decide))
    · subst h
      exact no_dot_line_mem hlinesub (by decide) (by decide)
    · subst h
      refine no_dot_mem hlinesub ?_
      intro hdotmem
      rcases chunkBase64_chars _ '.' hdotmem with h1 | h1 | h1
      · rcases base64Encode_chars _ '.' h1 with h2 | ⟨n, h2⟩
        · exact absurd h2 (by decide)
        · exact absurd h2.symm (b64char_ne n).1
      · exact absurd h1 (by decide)
      · exact absurd h1 (by decide)
    · subst h
      exact no_dot_line_mem hlinesub (by decide) (by decide)
    · subst h
      exact no_dot_line_mem hlinesub
        (crlf_free_append _ _ (crlf_free_append _ _ (by decide) hboundary) (by decide))
        (ne_dot_of_head_eq rfl (by decide))
    · subst h
      exact no_dot_line_mem hlinesub (by decide) (by decide)

/-- Witness for C5: a leading-dot line gains a period, and a concrete
two-line message round-trips through `dotStuff` with the first line
stuffed. -/
theorem dot_stuffing_at_send_time_witness :
    stuffLine ['.', 'a'] = '.' :: ['.', 'a']
    ∧ dotStuff (String.mk (joinCRLF [['.'], ['a']]))
      = String.mk (joinCRLF ([['.'], ['a']].map stuffLine)) :=
  ⟨dot_stuffing_at_send_time.1 ['.', 'a'] (by decide),
   dot_stuffing_at_send_time.2.2.2.1 [['.'], ['a']] (by decide) (by decide)⟩

end SendToKindle
